import Mathlib

set_option maxRecDepth 100000

/-!
u2_server_wind_rose: a shallow embedding of the three firmware variants.

The repository holds three Pico W programs:

* `joy_server`      (`src/joy_server/src/main.c`): a station-mode HTTP server that
  answers every request with a status page,
* `joy_server_ap`   (`src/joy_server_ap/src/main.c`): an access-point HTTP server
  with a tiny router,
* `bitdog_client`   (`src/remote_server/bitdog_client/src/main.c`): a client that
  posts the readings to a remote collector.

Conventions of the embedding:

* a byte is a `Nat`, a buffer or a `char *` into a buffer is the `List Nat` of the
  bytes from the pointed position to the end of the buffer;
* `err_t` and `int` are `Int`;
* `float` values are exact rationals (`ℚ`); the C library conversion `%.2f` is a
  parameter `fmt2f : ℚ → List Nat` of the functions that print a float;
* a callback returns the list of lwIP calls it issued, in order, and its return
  value; what lwIP answers to a call is an argument of the callback.
-/

/-! ## Bytes and C strings -/

/-- UTF-8 encoding of one code point, as byte values. -/
def utf8Char (c : Char) : List Nat :=
  let n := c.toNat
  if n < 128 then [n]
  else if n < 2048 then [192 + n / 64, 128 + n % 64]
  else if n < 65536 then [224 + n / 4096, 128 + (n / 64) % 64, 128 + n % 64]
  else [240 + n / 262144, 128 + (n / 4096) % 64, 128 + (n / 64) % 64, 128 + n % 64]

/-- The bytes of a C string literal of the (UTF-8 encoded) source. -/
def bytes (s : String) : List Nat := s.data.flatMap utf8Char

/-- The C string held at the start of a buffer: the bytes before the first NUL. -/
def cstr (buf : List Nat) : List Nat := buf.takeWhile (fun b => b ≠ 0)

/-- The function `strlen`. -/
def strlen (buf : List Nat) : Nat := (cstr buf).length

/-- The C string a buffer of `size` bytes holds after `snprintf(buf, size, ...)`
rendered `text`: at most `size - 1` bytes are stored, then a NUL. -/
def snprintf_str (size : Nat) (text : List Nat) : List Nat := cstr (text.take (size - 1))

/-- The buffer after `snprintf(buf, size, ...)` rendered `text`, and the value
`snprintf` returns (the length of the untruncated rendering). -/
def snprintf (buf : List Nat) (size : Nat) (text : List Nat) : List Nat × Int :=
  let w := text.take (size - 1)
  (w ++ 0 :: buf.drop (w.length + 1), (text.length : Int))

/-- The function `strncmp`: the end of a list reads as the terminating NUL. -/
def strncmp : List Nat → List Nat → Nat → Int
  | _, _, 0 => 0
  | a, b, n + 1 =>
    let ca := a.headD 0
    let cb := b.headD 0
    if ca ≠ cb then (ca : Int) - (cb : Int)
    else if ca = 0 then 0
    else strncmp a.tail b.tail n

/-- The function `strchr` for a non-NUL character `c`: the offset of the first
`c` before the terminating NUL, if any. -/
def strchr : List Nat → Nat → Option Nat
  | [], _ => none
  | b :: rest, c =>
    if b = c then some 0
    else if b = 0 then none
    else (strchr rest c).map (fun i => i + 1)

/-- The function `strncpy(dst, src, n)`: the string at `src` (cut at `n` bytes),
padded with NULs to `n` bytes, overwrites the first `n` bytes of `dst`. -/
def strncpy (dst src : List Nat) (n : Nat) : List Nat :=
  let s := (cstr src).take n
  s ++ List.replicate (n - s.length) 0 ++ dst.drop n

/-- Decimal digits of `n`, most significant first, as ASCII; `fuel` bounds the
number of digits. -/
def decDigits : Nat → Nat → List Nat
  | 0, _ => []
  | fuel + 1, n => if n < 10 then [48 + n] else decDigits fuel (n / 10) ++ [48 + n % 10]

/-- The conversion `%d` of `printf`. -/
def fmt_d (v : Int) : List Nat :=
  if v < 0 then 45 :: decDigits (v.natAbs + 1) v.natAbs else decDigits (v.toNat + 1) v.toNat

/-- The number a string of ASCII decimal digits denotes; `none` when the string
is empty or holds another byte. -/
def decimalValue (ds : List Nat) : Option Nat :=
  if ds = [] ∨ ¬ ds.all (fun d => decide (48 ≤ d ∧ d ≤ 57)) then none
  else some (ds.foldl (fun acc d => 10 * acc + (d - 48)) 0)

/-! ## lwIP as seen by the callbacks -/

/-- Value `ERR_OK` of lwIP. -/
def ERR_OK : Int := 0
/-- Value `ERR_VAL` of lwIP. -/
def ERR_VAL : Int := -6
/-- Value `ERR_ABRT` of lwIP. -/
def ERR_ABRT : Int := -13

/-- The callbacks the three programs register. -/
inductive Callback
  | joy_tcp_server_recv_fn
  | joy_tcp_sent_callback
  | ap_tcp_server_recv_fn
  | ap_tcp_server_poll
  | ap_tcp_server_sent
  | http_client_connected
  | http_client_recv
  deriving DecidableEq, Repr

/-- One call into lwIP on the connection a callback was invoked for. -/
inductive Call
  | tcp_arg (nonNull : Bool)
  | tcp_recv (cb : Option Callback)
  | tcp_sent (cb : Option Callback)
  | tcp_poll (cb : Option Callback) (interval : Nat)
  | tcp_err (cb : Option Callback)
  | tcp_write (data : List Nat)
  | tcp_output
  | tcp_recved (len : Nat)
  | pbuf_free
  | tcp_close
  | tcp_abort
  deriving DecidableEq, Repr

/-- The data of the `tcp_write` calls of a trace, in order. -/
def writes : List Call → List (List Nat)
  | [] => []
  | Call.tcp_write d :: cs => d :: writes cs
  | _ :: cs => writes cs

/-- Number of `tcp_close` calls of a trace. -/
def closes (cs : List Call) : Nat := cs.count Call.tcp_close

/-- Number of `tcp_abort` calls of a trace. -/
def aborts (cs : List Call) : Nat := cs.count Call.tcp_abort

/-- The record `SENSOR_DATA_T` (the same in the three programs); the `uint8_t`
buttons are reduced modulo 256 where they are read. -/
structure SENSOR_DATA_T where
  analog_x : ℚ
  analog_y : ℚ
  temperature : ℚ
  button_a : Nat
  button_b : Nat

/-- The memory a receive callback runs on: the shared reading its `arg` points
to and the lwIP calls made so far on the connection. -/
structure Device where
  readings : SENSOR_DATA_T
  trace : List Call

/-! ## The sampler (the same code in the three programs) -/

/-- The function `read_analog_x`; `adc` is what `adc_read` returns for input 1,
a `uint16_t`. The operands of the comparisons and subtractions are promoted to
the 32-bit `int`, where none of them overflows, so they are those of ℤ; the
divisor `2047.0 - dead_zone` is a `double`. -/
def read_analog_x (adc : Nat) : ℚ :=
  let raw_value : Int := ((adc % 65536 : Nat) : Int)
  let dead_zone : Int := 400
  if raw_value > 2048 + dead_zone then
    ((raw_value - 2048 - dead_zone : Int) : ℚ) / (2047 - (dead_zone : ℚ))
  else if raw_value < 2048 - dead_zone then
    ((raw_value - 2048 + dead_zone : Int) : ℚ) / (2047 - (dead_zone : ℚ))
  else 0

/-- The function `read_analog_y`; `adc` is what `adc_read` returns for input 0. -/
def read_analog_y (adc : Nat) : ℚ :=
  let raw_value : Int := ((adc % 65536 : Nat) : Int)
  let dead_zone : Int := 400
  if raw_value > 2048 + dead_zone then
    ((raw_value - 2048 - dead_zone : Int) : ℚ) / (2047 - (dead_zone : ℚ))
  else if raw_value < 2048 - dead_zone then
    ((raw_value - 2048 + dead_zone : Int) : ℚ) / (2047 - (dead_zone : ℚ))
  else 0

/-- The temperature computed inline by `update_readings` from `temp_raw`, the
`uint16_t` that `adc_read` returns for input 4. -/
def update_readings_temperature (temp_raw : Nat) : ℚ :=
  let conversion_factor : ℚ := (33 / 10) / ((1 <<< 12 : Nat) : ℚ)
  let voltage : ℚ := ((temp_raw % 65536 : Nat) : ℚ) * conversion_factor
  27 - (voltage - 706 / 1000) / (1721 / 1000000)

/-- The function `update_readings`: the reading stored from the three ADC
samples and the levels `gpio_get` returns for the two button lines. -/
def update_readings (adc_x adc_y temp_raw : Nat) (gpio_a gpio_b : Bool) : SENSOR_DATA_T :=
  { analog_x := read_analog_x adc_x
    analog_y := read_analog_y adc_y
    temperature := update_readings_temperature temp_raw
    button_a := if gpio_a then 0 else 1
    button_b := if gpio_b then 0 else 1 }

/-- The macro `ADC_VREF` of `drivers/temp.h`. -/
def ADC_VREF : ℚ := 33 / 10

/-- The macro `ADC_RESOLUTION` of `drivers/temp.h`. -/
def ADC_RESOLUTION : ℚ := 4096

/-- The function `voltage_to_temperature_c` of `drivers/temp.c`. -/
def voltage_to_temperature_c (voltage : ℚ) : ℚ :=
  27 - (voltage - 706 / 1000) / (1721 / 1000000)

/-- The function `read_internal_temperature` of `drivers/temp.c`; `raw` is the
`uint16_t` that `adc_read` returns. -/
def read_internal_temperature (raw : Nat) : ℚ :=
  let conversion_factor : ℚ := ADC_VREF / ADC_RESOLUTION
  let voltage : ℚ := ((raw % 65536 : Nat) : ℚ) * conversion_factor
  voltage_to_temperature_c voltage

/-- The position of a normalised axis value against the compass threshold 0.5,
as the specification words it: beyond it on the positive side, beyond it on the
negative side, or neither. -/
inductive Side
  | negative
  | middle
  | positive
  deriving DecidableEq, Repr

/-- The threshold check of the specification on one axis. -/
def side (v : ℚ) : Side :=
  if v > 1 / 2 then Side.positive else if v < -(1 / 2) then Side.negative else Side.middle

/-- The nine compass labels of the specification, by the east/west check on `x`
and the north/south check on `y`. -/
def compass_label : Side → Side → String
  | Side.positive, Side.positive => "NORDESTE"
  | Side.positive, Side.negative => "SUDESTE"
  | Side.positive, Side.middle => "LESTE"
  | Side.negative, Side.positive => "NOROESTE"
  | Side.negative, Side.negative => "SUDOESTE"
  | Side.negative, Side.middle => "OESTE"
  | Side.middle, Side.positive => "NORTE"
  | Side.middle, Side.negative => "SUL"
  | Side.middle, Side.middle => "CENTRO"

/-! ## Decimal texts and their reading -/

/-- The constant `FLT_EPSILON` of `float.h`, 2⁻²³. -/
def FLT_EPSILON : ℚ := 1 / 2 ^ 23

/-- The two ASCII digits of a number below 100. -/
def two_digits (n : Nat) : List Nat := [48 + n / 10 % 10, 48 + n % 10]

/-- The shape of what `%.2f` prints for a finite value (C standard, the precision
is the number of digits after the point): a minus sign when `neg`, the integer
part `n / 100` in decimal, a point, and the two digits of `n % 100`. -/
def render_decimal2 (neg : Bool) (n : Nat) : List Nat :=
  (if neg then [45] else []) ++ fmt_d ((n / 100 : Nat) : Int) ++ [46] ++ two_digits (n % 100)

/-- The number the text `render_decimal2 neg n` writes down. -/
def decimal2_value (neg : Bool) (n : Nat) : ℚ :=
  if neg then -((n : ℚ) / 100) else (n : ℚ) / 100

/-- A `%.2f` conversion for the examples: the value rounded to the nearest
hundredth, ties away from zero. -/
def fmt2f_nearest (v : ℚ) : List Nat :=
  render_decimal2 (decide (v < 0)) (⌊|v| * 100 + 1 / 2⌋).toNat

/-- Whether a byte is an ASCII decimal digit. -/
def is_digit (b : Nat) : Bool := decide (48 ≤ b ∧ b ≤ 57)

/-- The number a list of ASCII digits denotes. -/
def digits_value (ds : List Nat) : Nat := ds.foldl (fun acc d => 10 * acc + (d - 48)) 0

/-- Modelled from the spec: reading a JSON number (optional minus sign, integer
digits, optional fraction, no exponent) at the start of a text; the result is
its value and the text after it. The collector that parses the body is not
under src/. -/
def parse_number (s : List Nat) : Option (ℚ × List Nat) :=
  let neg : Bool := decide (s.head? = some 45)
  let s1 := if neg then s.tail else s
  let ip := s1.takeWhile is_digit
  let s2 := s1.dropWhile is_digit
  if ip = [] then none
  else
    match s2 with
    | 46 :: s3 =>
      let fp := s3.takeWhile is_digit
      if fp = [] then none
      else
        let v : ℚ := (digits_value ip : ℚ) + (digits_value fp : ℚ) / 10 ^ fp.length
        some (if neg then -v else v, s3.dropWhile is_digit)
    | _ => some (if neg then -(digits_value ip : ℚ) else (digits_value ip : ℚ), s2)

/-- Modelled from the spec: reading an expected piece of JSON text; the result
is the text after it. -/
def expect (lit s : List Nat) : Option (List Nat) :=
  if s.take lit.length = lit then some (s.drop lit.length) else none

/-- The five fields of the JSON body of the POST, as numbers. -/
structure PostFields where
  temp : ℚ
  joy_x : ℚ
  joy_y : ℚ
  btn_a : ℚ
  btn_b : ℚ

/-- Modelled from the spec: parsing the body of the POST as the JSON object with
the members temp, joy_x, joy_y, btn_a, btn_b. -/
def parse_post_body (body : List Nat) : Option PostFields :=
  (expect (bytes "\x7b\"temp\":") body).bind fun s0 =>
  (parse_number s0).bind fun temp =>
  (expect (bytes ",\"joy_x\":") temp.2).bind fun s1 =>
  (parse_number s1).bind fun joy_x =>
  (expect (bytes ",\"joy_y\":") joy_x.2).bind fun s2 =>
  (parse_number s2).bind fun joy_y =>
  (expect (bytes ",\"btn_a\":") joy_y.2).bind fun s3 =>
  (parse_number s3).bind fun btn_a =>
  (expect (bytes ",\"btn_b\":") btn_a.2).bind fun s4 =>
  (parse_number s4).bind fun btn_b =>
  if btn_b.2 = bytes "\x7d" then some ⟨temp.1, joy_x.1, joy_y.1, btn_a.1, btn_b.1⟩ else none

/-! ## joy_server -/

namespace JoyServer

/-- The function `get_wind_rose_direction`. -/
def get_wind_rose_direction (x y : ℚ) : String :=
  let threshold : ℚ := 1 / 2
  if x > threshold then
    if y > threshold then "NORDESTE"
    else if y < -threshold then "SUDESTE"
    else "LESTE"
  else if x < -threshold then
    if y > threshold then "NOROESTE"
    else if y < -threshold then "SUDOESTE"
    else "OESTE"
  else
    if y > threshold then "NORTE"
    else if y < -threshold then "SUL"
    else "CENTRO"

/-- The literal text of the body format of `tcp_server_recv_fn` before the first
conversion. -/
def body_head : List Nat :=
  bytes ("<!DOCTYPE html><html><head><meta charset=\"UTF-8\"><meta http-equiv=\"refresh\" content=\"1\"><title>Pico W - Status</title>"
    ++ "<style>body\x7bbackground:#1a1a1a;color:#00ff00;font-family:monospace;display:flex;justify-content:center;align-items:center;height:100vh;margin:0;\x7d"
    ++ ".box\x7bborder:2px solid #00ff00;padding:20px;text-align:center;min-width:300px;min-height:200px;\x7d"
    ++ "h1\x7bfont-size:24px;margin-bottom:10px;\x7dp\x7bmargin:5px 0;font-size:16px;\x7d</style></head>"
    ++ "<body><div class=\"box\"><h1>PicoW Status</h1>"
    ++ "<p>Joystick X: ")

/-- The full rendering of the body format of `tcp_server_recv_fn` for a reading,
before it is stored in the 4092-byte buffer. -/
def status_page (fmt2f : ℚ → List Nat) (r : SENSOR_DATA_T) : List Nat :=
  body_head ++ fmt2f r.analog_x
    ++ bytes "</p><p>Joystick Y: " ++ fmt2f r.analog_y
    ++ bytes "</p><p>Botão A: " ++ fmt_d ((r.button_a % 256 : Nat) : Int)
    ++ bytes "</p><p>Botão B: " ++ fmt_d ((r.button_b % 256 : Nat) : Int)
    ++ bytes "</p><p>Temperatura: " ++ fmt2f r.temperature
    ++ bytes " °C</p><p>Direção: <strong>"
    ++ cstr (bytes (get_wind_rose_direction r.analog_x r.analog_y))
    ++ bytes "</strong></p></div></body></html>"

/-- The literal text of the header format before the `%d` conversion. -/
def header_head : List Nat :=
  bytes "HTTP/1.1 200 OK\r\nContent-Type: text/html\r\nContent-Length: "

/-- The literal text of the header format after the `%d` conversion. -/
def header_tail : List Nat := bytes "\r\nConnection: close\r\n\r\n"

/-- The callback `tcp_sent_callback`; `close_err` is what `tcp_close` returns. -/
def tcp_sent_callback (close_err : Int) : List Call × Int :=
  ([Call.tcp_close], close_err)

/-- The callback `tcp_server_recv_fn` of joy_server. `p` is the received pbuf
(`none` for the NULL notification) as its `tot_len` payload bytes; the payload is
copied to the heap and not looked at. -/
def tcp_server_recv_fn (fmt2f : ℚ → List Nat) (readings : SENSOR_DATA_T)
    (p : Option (List Nat)) : List Call × Int :=
  match p with
  | none => ([Call.tcp_recv none, Call.tcp_close], ERR_OK)
  | some _ =>
    let body := snprintf_str 4092 (status_page fmt2f readings)
    let content_length : Int := (strlen body : Int)
    let headers := snprintf_str 256 (header_head ++ fmt_d content_length ++ header_tail)
    let html := snprintf_str (256 + 4092) (cstr headers ++ cstr body)
    ([Call.tcp_write (html.take (strlen html % 65536)), Call.tcp_output, Call.pbuf_free,
      Call.tcp_sent (some Callback.joy_tcp_sent_callback)], ERR_OK)

/-- A reading for the examples: stick centred, 0 °C, button A pressed. -/
def still_reading : SENSOR_DATA_T := ⟨0, 0, 0, 1, 0⟩

/-- A `%.2f` rendering for the examples, right on the three float fields of
`still_reading` (all zero): the text `0.00`. -/
def still_fmt : ℚ → List Nat := fun _ => bytes "0.00"

/-- The callback `tcp_server_recv_fn` of joy_server run on the device memory.
It only reads `*readings`: no statement of it assigns through the pointer. -/
def on_recv (fmt2f : ℚ → List Nat) (d : Device) (p : Option (List Nat)) : Device × Int :=
  let out := tcp_server_recv_fn fmt2f d.readings p
  ({ readings := d.readings, trace := d.trace ++ out.1 }, out.2)

end JoyServer


/-! ## joy_server_ap -/

namespace JoyServerAp

/-- The string `html_content` of `test_server_content`. -/
def html_content : List Nat :=
  bytes "<html><body><h1>Servidor funcionando!</h1></body></html>"

/-- The string `not_found_content` of `test_server_content`. -/
def not_found_content : List Nat :=
  bytes "<html><body><h1>404 Não encontrado</h1></body></html>"

/-- The function `test_server_content`: the value it returns and the `result`
buffer afterwards. The three `printf` calls write to the debug console only and
are left out. -/
def test_server_content (request : List Nat) (_params : Option (List Nat))
    (result : List Nat) (result_size : Nat) : Int × List Nat :=
  if strncmp request (bytes "/sensors") (9 - 1) = 0 then
    let len := strlen html_content
    ((len : Int), if len < result_size then strncpy result html_content result_size else result)
  else
    let len := strlen not_found_content
    ((len : Int), if len < result_size then strncpy result not_found_content result_size else result)

/-- The function `tcp_close_client_connection`. `client_pcb` tells whether the
handle is non-null, `tcp_close_err` is what `tcp_close` returns. The `assert`
names a variable the file does not declare, so the program only builds with
assertions compiled out. -/
def tcp_close_client_connection (client_pcb : Bool) (tcp_close_err : Int) (close_err : Int) :
    List Call × Int :=
  if client_pcb then
    let cleared := [Call.tcp_arg false, Call.tcp_poll none 0, Call.tcp_sent none,
      Call.tcp_recv none, Call.tcp_err none, Call.tcp_close]
    let err := tcp_close_err
    if err ≠ ERR_OK then (cleared ++ [Call.tcp_abort], ERR_ABRT)
    else (cleared, close_err)
  else ([], close_err)

/-- What `tcp_server_recv_fn` finds around it when it runs: the bytes the two
uninitialised local buffers hold on entry, the string `ipaddr_ntoa` returns for
the local address, and what lwIP returns for the writes and for `tcp_close`. -/
structure Frame where
  headers0 : List Nat
  result0 : List Nat
  local_ip : List Nat
  write_headers : Int
  write_body : Int
  close : Int

/-- Step 5 of `tcp_server_recv_fn`: the `headers` buffer after the copy of at
most 511 payload bytes and the store of the NUL at index 511. -/
def work_buffer (headers0 payload : List Nat) : List Nat :=
  let max_copy := 512 - 1
  let n := if payload.length > max_copy then max_copy else payload.length
  (payload.take n ++ headers0.drop n).set max_copy 0

/-- Step 6 of `tcp_server_recv_fn` after the method check: the `request` pointer
(`headers + 4`, with the NULs stored in place) and the `params` pointer. -/
def split_request (headers : List Nat) : List Nat × Option (List Nat) :=
  let request := headers.drop 4
  match strchr request 63 with
  | some i =>
    let space := strchr request 32
    let request1 := request.set i 0
    let request2 := match space with
      | some j => request1.set j 0
      | none => request1
    (request2, some (request2.drop (i + 1)))
  | none => (request, none)

/-- The text of the 200 header format before its `%d` conversion. -/
def ok_head : List Nat :=
  bytes "HTTP/1.1 200 OK\r\nContent-Type: text/html\r\nConnection: close\r\nContent-Length: "

/-- The text of the 200 header format after its `%d` conversion. -/
def ok_tail : List Nat := bytes "\r\n\r\n"

/-- The text of the 302 header format before its `%s` conversion. -/
def found_head : List Nat := bytes "HTTP/1.1 302 Found\r\nLocation: http://"

/-- The text of the 302 header format after its `%s` conversion. -/
def found_tail : List Nat := bytes "\r\n\r\n/sensors"

/-- Step 8 of `tcp_server_recv_fn`: the rendering of the header format chosen by
`result_len`. -/
def render_headers (result_len : Int) (local_ip : List Nat) : List Nat :=
  if result_len > 0 then ok_head ++ fmt_d result_len ++ ok_tail
  else found_head ++ cstr local_ip ++ found_tail

/-- The inlined close sequence of `tcp_server_recv_fn` (`tcp_close`, then
`tcp_arg(pcb, NULL)` when the close succeeded), after the calls `done`. -/
def close_inline (done : List Call) (close_err : Int) : List Call × Int :=
  if close_err ≠ ERR_OK then (done ++ [Call.tcp_close], close_err)
  else (done ++ [Call.tcp_close, Call.tcp_arg false], ERR_OK)

/-- The body of `tcp_server_recv_fn` of joy_server_ap, for any content generator
`gen` in the place of `test_server_content`. -/
def tcp_server_recv_core
    (gen : List Nat → Option (List Nat) → List Nat → Nat → Int × List Nat)
    (env : Frame) (p : Option (List Nat)) : List Call × Int :=
  match p with
  | none => close_inline [] env.close
  | some payload =>
    if payload.length > 0 then
      let headers := work_buffer env.headers0 payload
      if strncmp (bytes "GET ") headers 4 = 0 then
        let parsed := split_request headers
        let generated := gen parsed.1 parsed.2 env.result0 1024
        let result_len := generated.1
        let result := generated.2
        let rendered := snprintf (headers.take 4 ++ parsed.1) 512 (render_headers result_len env.local_ip)
        let header_len := rendered.2
        if header_len > 512 - 1 then close_inline [] env.close
        else
          let sent_headers := Call.tcp_write (rendered.1.take (header_len.toNat % 65536))
          if env.write_headers ≠ ERR_OK then close_inline [sent_headers] env.close
          else
            let finish := [Call.tcp_recved payload.length, Call.pbuf_free]
            if result_len > 0 then
              let sent_body := Call.tcp_write (result.take (result_len.toNat % 65536))
              -- a failed body write is only logged
              if env.write_body ≠ ERR_OK then (sent_headers :: sent_body :: finish, ERR_OK)
              else (sent_headers :: sent_body :: finish, ERR_OK)
            else (sent_headers :: finish, ERR_OK)
      else ([Call.tcp_recved payload.length, Call.pbuf_free], ERR_OK)
    else ([Call.pbuf_free], ERR_OK)

/-- The callback `tcp_server_recv_fn` of joy_server_ap. -/
def tcp_server_recv_fn (env : Frame) (p : Option (List Nat)) : List Call × Int :=
  tcp_server_recv_core test_server_content env p

/-- The callback `tcp_server_poll`. -/
def tcp_server_poll (tcp_close_err : Int) : List Call × Int :=
  tcp_close_client_connection true tcp_close_err ERR_OK

/-- The callback `tcp_server_sent`: it logs `len` and returns. -/
def tcp_server_sent (_len : Nat) : List Call × Int := ([], ERR_OK)

/-- The callback `tcp_server_accept_callback`; `arg` and `new_pcb` tell whether
the pointers are non-null. -/
def tcp_server_accept_callback (arg new_pcb : Bool) (err : Int) : List Call × Int :=
  if err ≠ ERR_OK ∨ new_pcb = false then ([], ERR_VAL)
  else ([Call.tcp_arg arg, Call.tcp_recv (some Callback.ap_tcp_server_recv_fn),
    Call.tcp_poll (some Callback.ap_tcp_server_poll) 10,
    Call.tcp_sent (some Callback.ap_tcp_server_sent)], ERR_OK)

/-- The callbacks registered on one connection (the fields of the pcb the
`tcp_arg`, `tcp_recv`, `tcp_poll`, `tcp_sent` and `tcp_err` calls set). -/
structure Conn where
  arg : Bool
  recv : Option Callback
  poll : Option Callback
  sent : Option Callback
  err : Option Callback
  deriving DecidableEq, Repr

/-- A connection lwIP has just created: nothing registered. -/
def Conn.fresh : Conn := ⟨false, none, none, none, none⟩

/-- The effect of one lwIP call on the registrations of the connection. -/
def Conn.register (c : Conn) : Call → Conn
  | Call.tcp_arg a => { c with arg := a }
  | Call.tcp_recv cb => { c with recv := cb }
  | Call.tcp_poll cb _ => { c with poll := cb }
  | Call.tcp_sent cb => { c with sent := cb }
  | Call.tcp_err cb => { c with err := cb }
  | _ => c

/-- An event lwIP delivers on an accepted connection, with what the callback
will find around it. -/
inductive Event
  | recv (env : Frame) (p : Option (List Nat))
  | poll (tcp_close_err : Int)
  | sent (len : Nat)

/-- The calls the program makes for one event: those of the callback registered
for it, none when no callback of the program is registered. -/
def dispatch (c : Conn) : Event → List Call × Int
  | Event.recv env p =>
    if c.recv = some Callback.ap_tcp_server_recv_fn then tcp_server_recv_fn env p else ([], ERR_OK)
  | Event.poll e =>
    if c.poll = some Callback.ap_tcp_server_poll then tcp_server_poll e else ([], ERR_OK)
  | Event.sent len =>
    if c.sent = some Callback.ap_tcp_server_sent then tcp_server_sent len else ([], ERR_OK)

/-- One event on a connection: the registrations and the trace afterwards. -/
def step (s : Conn × List Call) (e : Event) : Conn × List Call :=
  let out := dispatch s.1 e
  (out.1.foldl Conn.register s.1, s.2 ++ out.1)

/-- A sequence of events on a connection. -/
def run (s : Conn × List Call) (es : List Event) : Conn × List Call := es.foldl step s

/-- The connection right after `tcp_server_accept_callback` accepted it. -/
def accepted (arg : Bool) : Conn × List Call :=
  let out := tcp_server_accept_callback arg true ERR_OK
  (out.1.foldl Conn.register Conn.fresh, out.1)

/-- Whether a call is the receive-window acknowledgement `tcp_recved`. -/
def is_recved : Call → Bool
  | Call.tcp_recved _ => true
  | _ => false

/-- The response part of a trace: every call but `tcp_recved`, whose argument
reports how many bytes were received. -/
def response (cs : List Call) : List Call := cs.filter (fun c => !is_recved c)

/-- A frame for the examples: both local buffers filled with 0xFF, the local
address 192.168.4.1, every lwIP call succeeding. -/
def quiet_frame : Frame :=
  ⟨List.replicate 512 255, List.replicate 1024 255, bytes "192.168.4.1", ERR_OK, ERR_OK, ERR_OK⟩

/-- A request for the examples. -/
def get_sensors : List Nat := bytes "GET /sensors HTTP/1.1\r\n\r\n"

/-- A request with another method, for the examples. -/
def post_root : List Nat := bytes "POST / HTTP/1.1\r\n\r\n"

/-- Whether an event is a poll event. -/
def is_poll : Event → Bool
  | Event.poll _ => true
  | _ => false

/-- Whether a call changes the poll registration. -/
def sets_poll : Call → Bool
  | Call.tcp_poll _ _ => true
  | _ => false

/-- The callback `tcp_server_recv_fn` of joy_server_ap run on the device memory.
It never uses `arg`; `tcp_arg(pcb, NULL)` changes the pcb, not the reading. -/
def on_recv (env : Frame) (d : Device) (p : Option (List Nat)) : Device × Int :=
  let out := tcp_server_recv_fn env p
  ({ readings := d.readings, trace := d.trace ++ out.1 }, out.2)

/-- Whether `printf(format)`, called with no further argument, has defined
behaviour: every `%` of the format starts the directive `%%`. Any other
directive asks for an argument that was not passed. -/
def printf_defined : List Nat → Bool
  | [] => true
  | 37 :: 37 :: rest => printf_defined rest
  | 37 :: _ => false
  | _ :: rest => printf_defined rest

/-- Whether the call `printf(request)` of `test_server_content` has defined
behaviour. -/
def test_server_content_defined (request : List Nat) : Bool :=
  printf_defined (cstr request)

/-- Whether every statement `tcp_server_recv_fn` runs for `p` has defined
behaviour: the copy, the method check, the searches and the route comparison
always do (they stay inside the NUL-terminated work buffer); `printf(request)`
does when the request holds no conversion directive. -/
def tcp_server_recv_defined (env : Frame) (p : Option (List Nat)) : Bool :=
  match p with
  | none => true
  | some payload =>
    if payload.length > 0 then
      let headers := work_buffer env.headers0 payload
      if strncmp (bytes "GET ") headers 4 = 0 then
        test_server_content_defined (split_request headers).1
      else true
    else true

/-- A request whose path holds a `printf` conversion directive. -/
def get_percent_s : List Nat := bytes "GET /%s HTTP/1.1\r\n\r\n"

/-- A request with no `?` in its target and one in a later header line. -/
def get_with_referer : List Nat :=
  bytes "GET /sensors HTTP/1.1\r\nReferer: http://192.168.4.1/?a=1\r\n\r\n"

/-- A short request: the path stops in the middle of the route. -/
def get_sen : List Nat := bytes "GET /sen"

/-- A frame like `quiet_frame` whose `headers` buffer holds the bytes `sors` at
offsets 8..11 on entry (what an earlier use of the same stack left there). -/
def residue_frame : Frame :=
  { quiet_frame with
    headers0 := List.replicate 8 255 ++ bytes "sors" ++ List.replicate 500 255 }

end JoyServerAp

/-! ## bitdog_client -/

namespace BitdogClient

/-- The connections of the client: `next_pcb` numbers the pcbs `tcp_new` hands
out, `live` lists those created and neither closed nor aborted yet. -/
structure Client where
  next_pcb : Nat
  live : List Nat
  deriving DecidableEq, Repr

/-- The client at boot. -/
def Client.boot : Client := ⟨0, []⟩

/-- The function `send_sensor_data`. `tcp_new_ok` tells whether `tcp_new` returned
a pcb, `connect_err` is what `tcp_connect` returns; a failed connect aborts the
new pcb, a successful one leaves it open with the readings as its argument. -/
def send_sensor_data (c : Client) (tcp_new_ok : Bool) (connect_err : Int) : Client :=
  if tcp_new_ok = false then c
  else
    let pcb := c.next_pcb
    if connect_err ≠ ERR_OK then { c with next_pcb := pcb + 1 }
    else { next_pcb := pcb + 1, live := pcb :: c.live }

/-- The callback `http_client_recv`: one `tcp_close`, after `pbuf_free` when a
pbuf came. -/
def http_client_recv (p : Option (List Nat)) : List Call × Int :=
  match p with
  | none => ([Call.tcp_close], ERR_OK)
  | some _ => ([Call.pbuf_free, Call.tcp_close], ERR_OK)

/-- An event of the client program. `tick` is one iteration of the loop of
`main` after `cyw43_arch_poll` returned; `connected` and `recv` are callbacks
lwIP delivers during `cyw43_arch_poll` on pcb `pcb`, with what `tcp_close`
returns when the callback calls it. -/
inductive Event
  | tick (link_up tcp_new_ok : Bool) (connect_err : Int)
  | connected (pcb : Nat) (err : Int) (tcp_close_err : Int)
  | recv (pcb : Nat) (p : Option (List Nat)) (tcp_close_err : Int)

/-- A pcb leaves `live` when `tcp_close` on it succeeds. -/
def close_pcb (c : Client) (pcb : Nat) (tcp_close_err : Int) : Client :=
  if tcp_close_err = ERR_OK then { c with live := c.live.erase pcb } else c

/-- One event of the client program. `main` calls `send_sensor_data` on every
tick with the link up; `http_client_connected` closes on an error and sends the
POST otherwise; `http_client_recv` always closes. Callbacks only come for live
pcbs. -/
def step (c : Client) : Event → Client
  | Event.tick link_up tcp_new_ok connect_err =>
    if link_up then send_sensor_data c tcp_new_ok connect_err else c
  | Event.connected pcb err tcp_close_err =>
    if pcb ∈ c.live then
      if err ≠ ERR_OK then close_pcb c pcb tcp_close_err else c
    else c
  | Event.recv pcb p tcp_close_err =>
    if pcb ∈ c.live then
      if Call.tcp_close ∈ (http_client_recv p).1 then close_pcb c pcb tcp_close_err else c
    else c

/-- A sequence of events of the client program. -/
def run (c : Client) (es : List Event) : Client := es.foldl step c

/-- Whether an event is a tick of `main` with the link up (a call of
`send_sensor_data`). -/
def is_push : Event → Bool
  | Event.tick link_up _ _ => link_up
  | _ => false

/-- The macro `DATA_ENDPOINT`. -/
def DATA_ENDPOINT : List Nat := bytes "/update_readings"

/-- The macro `HTTP_SERVER`. -/
def HTTP_SERVER : List Nat := bytes "192.168.181.161"

/-- The full rendering of the body format of `http_client_send_post`, before it
is stored in the 512-byte buffer. -/
def post_body (fmt2f : ℚ → List Nat) (data : SENSOR_DATA_T) : List Nat :=
  bytes "\x7b\"temp\":" ++ fmt2f data.temperature
    ++ bytes ",\"joy_x\":" ++ fmt2f data.analog_x
    ++ bytes ",\"joy_y\":" ++ fmt2f data.analog_y
    ++ bytes ",\"btn_a\":" ++ fmt_d ((data.button_a % 256 : Nat) : Int)
    ++ bytes ",\"btn_b\":" ++ fmt_d ((data.button_b % 256 : Nat) : Int)
    ++ bytes "\x7d"

/-- The rendering of the request format up to its `%d` conversion. -/
def request_head : List Nat :=
  bytes "POST " ++ cstr DATA_ENDPOINT ++ bytes " HTTP/1.1\r\nHost: " ++ cstr HTTP_SERVER
    ++ bytes "\r\nContent-Type: application/json\r\nContent-Length: "

/-- The text of the request format between its `%d` and its last `%s`. -/
def request_tail : List Nat := bytes "\r\nConnection: close\r\n\r\n"

/-- The function `http_client_send_post`: the lwIP calls it makes. -/
def http_client_send_post (fmt2f : ℚ → List Nat) (data : SENSOR_DATA_T) : List Call :=
  let body := snprintf_str 512 (post_body fmt2f data)
  let body_len : Int := (strlen body : Int)
  let request := snprintf_str 1024 (request_head ++ fmt_d body_len ++ request_tail ++ cstr body)
  [Call.tcp_write (request.take (strlen request % 65536)), Call.tcp_output]

/-- The callback `http_client_connected`; `tcp_close_err` is not looked at (the
result of `tcp_close` is dropped). -/
def http_client_connected (fmt2f : ℚ → List Nat) (data : SENSOR_DATA_T) (err : Int) :
    List Call × Int :=
  if err ≠ ERR_OK then ([Call.tcp_close], err)
  else (Call.tcp_recv (some Callback.http_client_recv) :: http_client_send_post fmt2f data, ERR_OK)

/-- The callback `http_client_recv` run on the device memory. It never uses
`arg`. -/
def on_recv (d : Device) (p : Option (List Nat)) : Device × Int :=
  let out := http_client_recv p
  ({ readings := d.readings, trace := d.trace ++ out.1 }, out.2)

end BitdogClient

/-! ## Facts about the string primitives -/

theorem cstr_eq_self (l : List Nat) (h : ∀ b ∈ l, b ≠ 0) : cstr l = l := by
  unfold cstr
  rw [List.takeWhile_eq_self_iff]
  intro b hb
  simpa using h b hb

theorem cstr_no_nul (l : List Nat) : ∀ b ∈ cstr l, b ≠ 0 := by
  intro b hb
  have := List.mem_takeWhile_imp hb
  simpa using this

theorem cstr_length_le (l : List Nat) : (cstr l).length ≤ l.length := by
  unfold cstr
  exact (List.takeWhile_sublist _).length_le

theorem cstr_idem (l : List Nat) : cstr (cstr l) = cstr l :=
  cstr_eq_self _ (cstr_no_nul l)

theorem snprintf_str_length_le (size : Nat) (text : List Nat) :
    (snprintf_str size text).length ≤ size - 1 := by
  unfold snprintf_str
  exact (cstr_length_le _).trans (by simp)

theorem snprintf_str_fits (size : Nat) (text : List Nat) (hlen : text.length ≤ size - 1)
    (h0 : ∀ b ∈ text, b ≠ 0) : snprintf_str size text = text := by
  unfold snprintf_str
  rw [List.take_of_length_le hlen, cstr_eq_self _ h0]

theorem decDigits_digit (fuel n : Nat) : ∀ d ∈ decDigits fuel n, 48 ≤ d ∧ d ≤ 57 := by
  induction fuel generalizing n with
  | zero => simp [decDigits]
  | succ fuel ih =>
    intro d hd
    unfold decDigits at hd
    split_ifs at hd with h
    · simp at hd; omega
    · rw [List.mem_append] at hd
      rcases hd with hd | hd
      · exact ih _ d hd
      · simp at hd; omega

theorem decDigits_length (fuel n k : Nat) (hk : 1 ≤ k) (h : n < 10 ^ k) :
    (decDigits fuel n).length ≤ k := by
  induction fuel generalizing n k with
  | zero => simp [decDigits]
  | succ fuel ih =>
    unfold decDigits
    split_ifs with h10
    · simpa using hk
    · obtain ⟨j, rfl⟩ : ∃ j, k = j + 1 := ⟨k - 1, by omega⟩
      have hj : 1 ≤ j := by
        rcases Nat.eq_zero_or_pos j with hj | hj
        · subst hj; simp at h; omega
        · exact hj
      have : n / 10 < 10 ^ j := by
        rw [Nat.div_lt_iff_lt_mul (by norm_num)]
        rw [pow_succ] at h; exact h
      have := ih (n / 10) j hj this
      simp; omega

theorem decDigits_value (fuel n : Nat) (h : n < 10 ^ (fuel + 1)) :
    decDigits (fuel + 1) n ≠ [] ∧
      (decDigits (fuel + 1) n).foldl (fun acc d => 10 * acc + (d - 48)) 0 = n := by
  induction fuel generalizing n with
  | zero =>
    have : n < 10 := by simpa using h
    simp [decDigits, this]
  | succ fuel ih =>
    rw [decDigits]
    split_ifs with h10
    · simp
    · have hlt : n / 10 < 10 ^ (fuel + 1) := by
        rw [Nat.div_lt_iff_lt_mul (by norm_num)]
        rw [pow_succ] at h; exact h
      obtain ⟨_, hv⟩ := ih (n / 10) hlt
      refine ⟨by simp, ?_⟩
      rw [List.foldl_append, hv]
      simp
      omega

theorem fmt_d_nat (n : Nat) : fmt_d (n : Int) = decDigits (n + 1) n := by
  unfold fmt_d
  simp

theorem decimalValue_fmt_d (n : Nat) : decimalValue (fmt_d (n : Int)) = some n := by
  rw [fmt_d_nat]
  have hlt : n < 10 ^ (n + 1) := (Nat.lt_pow_self (by norm_num) n).trans (Nat.pow_lt_pow_right (by norm_num) (by omega))
  obtain ⟨hne, hv⟩ := decDigits_value n n hlt
  unfold decimalValue
  have hall : ¬ (decDigits (n + 1) n = [] ∨
      ¬ (decDigits (n + 1) n).all (fun d => decide (48 ≤ d ∧ d ≤ 57)) = true) := by
    rintro (h | h)
    · exact hne h
    · apply h
      rw [List.all_eq_true]
      intro d hd
      simpa using decDigits_digit _ _ d hd
  rw [if_neg hall, hv]

theorem fmt_d_nat_no_nul (n : Nat) : ∀ b ∈ fmt_d (n : Int), b ≠ 0 := by
  intro b hb
  rw [fmt_d_nat] at hb
  have := decDigits_digit _ _ b hb
  omega

namespace JoyServer

theorem header_head_facts : header_head.length = 58 ∧ ∀ b ∈ header_head, b ≠ 0 := by decide

theorem header_tail_facts : header_tail.length = 23 ∧ ∀ b ∈ header_tail, b ≠ 0 := by decide

theorem body_head_facts : body_head.length = 501 ∧ ∀ b ∈ body_head, b ≠ 0 := by decide

theorem direction_facts (x y : ℚ) :
    (cstr (bytes (get_wind_rose_direction x y))).length ≤ 8 := by
  unfold get_wind_rose_direction
  dsimp only
  split_ifs <;> decide

theorem status_page_fits (fmt2f : ℚ → List Nat) (r : SENSOR_DATA_T)
    (hx : (fmt2f r.analog_x).length ≤ 1000 ∧ ∀ b ∈ fmt2f r.analog_x, b ≠ 0)
    (hy : (fmt2f r.analog_y).length ≤ 1000 ∧ ∀ b ∈ fmt2f r.analog_y, b ≠ 0)
    (ht : (fmt2f r.temperature).length ≤ 1000 ∧ ∀ b ∈ fmt2f r.temperature, b ≠ 0) :
    (status_page fmt2f r).length ≤ 4092 - 1 ∧ ∀ b ∈ status_page fmt2f r, b ≠ 0 := by
  have ha : (fmt_d ((r.button_a % 256 : Nat) : Int)).length ≤ 3 := by
    rw [fmt_d_nat]
    exact decDigits_length _ _ 3 (by norm_num) (by omega)
  have hb : (fmt_d ((r.button_b % 256 : Nat) : Int)).length ≤ 3 := by
    rw [fmt_d_nat]
    exact decDigits_length _ _ 3 (by norm_num) (by omega)
  have hd := direction_facts r.analog_x r.analog_y
  have l1 : (bytes "</p><p>Joystick Y: ").length = 19 ∧ ∀ b ∈ bytes "</p><p>Joystick Y: ", b ≠ 0 := by
    decide
  have l2 : (bytes "</p><p>Botão A: ").length = 17 ∧ ∀ b ∈ bytes "</p><p>Botão A: ", b ≠ 0 := by
    decide
  have l3 : (bytes "</p><p>Botão B: ").length = 17 ∧ ∀ b ∈ bytes "</p><p>Botão B: ", b ≠ 0 := by
    decide
  have l4 : (bytes "</p><p>Temperatura: ").length = 20 ∧
      ∀ b ∈ bytes "</p><p>Temperatura: ", b ≠ 0 := by decide
  have l5 : (bytes " °C</p><p>Direção: <strong>").length = 30 ∧
      ∀ b ∈ bytes " °C</p><p>Direção: <strong>", b ≠ 0 := by decide
  have l6 : (bytes "</strong></p></div></body></html>").length = 33 ∧
      ∀ b ∈ bytes "</strong></p></div></body></html>", b ≠ 0 := by decide
  have l0 := body_head_facts
  constructor
  · unfold status_page
    simp only [List.length_append]
    omega
  · intro b hb
    unfold status_page at hb
    simp only [List.mem_append] at hb
    rcases hb with ((((((((((((h | h) | h) | h) | h) | h) | h) | h) | h) | h) | h) | h) | h)
    · exact l0.2 b h
    · exact hx.2 b h
    · exact l1.2 b h
    · exact hy.2 b h
    · exact l2.2 b h
    · exact fmt_d_nat_no_nul _ b h
    · exact l3.2 b h
    · exact fmt_d_nat_no_nul _ b h
    · exact l4.2 b h
    · exact ht.2 b h
    · exact l5.2 b h
    · exact cstr_no_nul _ b h
    · exact l6.2 b h

/-- C1. joy_server status page: for every reading, every rendering `fmt2f` of
`%.2f` and every received payload, `tcp_server_recv_fn` writes one block made of
the header text, the decimal digits of the Content-Length, the rest of the
header and the body, where the digits denote exactly the byte length of the body
that follows. The header buffer (256 bytes) and the combined buffer never cut
anything; the body is the full rendering of the page whenever the three `%.2f`
renderings are NUL-free and at most 1000 bytes each (every `double` renders in
at most 317 bytes), so the 4092-byte body buffer cuts nothing either. -/
theorem status_response_content_length (fmt2f : ℚ → List Nat) (readings : SENSOR_DATA_T)
    (payload : List Nat) :
    ∃ digits body : List Nat,
      body = cstr ((status_page fmt2f readings).take (4092 - 1)) ∧
      tcp_server_recv_fn fmt2f readings (some payload) =
        ([Call.tcp_write (header_head ++ digits ++ header_tail ++ body), Call.tcp_output,
          Call.pbuf_free, Call.tcp_sent (some Callback.joy_tcp_sent_callback)], ERR_OK) ∧
      decimalValue digits = some body.length ∧
      (((fmt2f readings.analog_x).length ≤ 1000 ∧ ∀ b ∈ fmt2f readings.analog_x, b ≠ 0) →
       ((fmt2f readings.analog_y).length ≤ 1000 ∧ ∀ b ∈ fmt2f readings.analog_y, b ≠ 0) →
       ((fmt2f readings.temperature).length ≤ 1000 ∧ ∀ b ∈ fmt2f readings.temperature, b ≠ 0) →
       body = status_page fmt2f readings) := by
  refine ⟨fmt_d ((cstr ((status_page fmt2f readings).take (4092 - 1))).length : Int),
    cstr ((status_page fmt2f readings).take (4092 - 1)), rfl, ?_, decimalValue_fmt_d _, ?_⟩
  · -- the three buffers hold the whole of what is rendered into them
    have hblen : (cstr ((status_page fmt2f readings).take (4092 - 1))).length ≤ 4091 := by
      have := cstr_length_le ((status_page fmt2f readings).take (4092 - 1))
      simp only [List.length_take] at this
      omega
    set body := cstr ((status_page fmt2f readings).take (4092 - 1)) with hbody
    have hb0 : ∀ b ∈ body, b ≠ 0 := cstr_no_nul _
    have hstr : snprintf_str 4092 (status_page fmt2f readings) = body := rfl
    have hsl : strlen body = body.length := by
      unfold strlen; rw [cstr_eq_self _ hb0]
    set hdr := header_head ++ fmt_d (body.length : Int) ++ header_tail with hhdr
    have hdig : (fmt_d (body.length : Int)).length ≤ 4 := by
      rw [fmt_d_nat]
      exact decDigits_length _ _ 4 (by norm_num) (by omega)
    have hh0 : ∀ b ∈ hdr, b ≠ 0 := by
      intro b hb
      simp only [hhdr, List.mem_append] at hb
      rcases hb with (h | h) | h
      · exact header_head_facts.2 b h
      · exact fmt_d_nat_no_nul _ b h
      · exact header_tail_facts.2 b h
    have hhlen : hdr.length ≤ 85 := by
      simp only [hhdr, List.length_append, header_head_facts.1, header_tail_facts.1]
      omega
    have hheaders : snprintf_str 256 hdr = hdr :=
      snprintf_str_fits _ _ (by omega) hh0
    have hall0 : ∀ b ∈ hdr ++ body, b ≠ 0 := by
      intro b hb
      rcases List.mem_append.1 hb with h | h
      · exact hh0 b h
      · exact hb0 b h
    have hhtml : snprintf_str (256 + 4092) (cstr hdr ++ cstr body) = hdr ++ body := by
      rw [cstr_eq_self _ hh0, cstr_eq_self _ hb0]
      exact snprintf_str_fits _ _ (by simp only [List.length_append]; omega) hall0
    have hlen : strlen (hdr ++ body) % 65536 = (hdr ++ body).length := by
      unfold strlen
      rw [cstr_eq_self _ hall0]
      apply Nat.mod_eq_of_lt
      simp only [List.length_append]; omega
    unfold tcp_server_recv_fn
    simp only [hstr, hsl, hheaders, hhtml, hlen, List.take_length]
  · intro hx hy ht
    obtain ⟨hlen, h0⟩ := status_page_fits fmt2f readings hx hy ht
    rw [List.take_of_length_le hlen, cstr_eq_self _ h0]

theorem direction_centre : get_wind_rose_direction 0 0 = "CENTRO" := by
  unfold get_wind_rose_direction
  norm_num

theorem status_response_example :
    (status_page still_fmt still_reading).length = 657 ∧
      tcp_server_recv_fn still_fmt still_reading (some (bytes "GET / HTTP/1.1\r\n\r\n")) =
        ([Call.tcp_write (header_head ++ bytes "657" ++ header_tail
            ++ status_page still_fmt still_reading),
          Call.tcp_output, Call.pbuf_free, Call.tcp_sent (some Callback.joy_tcp_sent_callback)],
         ERR_OK) := by
  unfold tcp_server_recv_fn status_page still_reading
  simp only [direction_centre]
  decide

/-- Witness of C1 at `still_reading`: the premises on the `%.2f` renderings hold,
so the body written is the full page and the digits denote its length. -/
theorem status_response_content_length_witness :
    ∃ digits : List Nat,
      tcp_server_recv_fn still_fmt still_reading (some (bytes "GET / HTTP/1.1\r\n\r\n")) =
        ([Call.tcp_write (header_head ++ digits ++ header_tail
            ++ status_page still_fmt still_reading),
          Call.tcp_output, Call.pbuf_free, Call.tcp_sent (some Callback.joy_tcp_sent_callback)],
         ERR_OK) ∧
      decimalValue digits = some (status_page still_fmt still_reading).length := by
  obtain ⟨digits, body, _, hw, hd, hfull⟩ :=
    status_response_content_length still_fmt still_reading (bytes "GET / HTTP/1.1\r\n\r\n")
  have hb : body = status_page still_fmt still_reading :=
    hfull (by decide) (by decide) (by decide)
  subst hb
  exact ⟨digits, hw, hd⟩

end JoyServer

namespace JoyServerAp

theorem work_buffer_cons4 (headers0 rest : List Nat) (a b c d : Nat) :
    ∃ tl, work_buffer headers0 (a :: b :: c :: d :: rest) = a :: b :: c :: d :: tl := by
  unfold work_buffer
  dsimp only
  split_ifs with h
  · exact ⟨_, rfl⟩
  · simp only [List.length_cons, List.take_succ_cons, List.cons_append]
    exact ⟨_, rfl⟩

theorem strncmp_get_of_take (headers0 payload : List Nat) (h : payload.take 4 = bytes "GET ") :
    strncmp (bytes "GET ") (work_buffer headers0 payload) 4 = 0 := by
  have hb : bytes "GET " = [71, 69, 84, 32] := by decide
  rw [hb] at h ⊢
  match payload, h with
  | a :: b :: c :: d :: rest, h =>
    simp only [List.take_succ_cons, List.take_zero, List.cons.injEq, and_true] at h
    obtain ⟨rfl, rfl, rfl, rfl⟩ := h
    obtain ⟨tl, htl⟩ := work_buffer_cons4 headers0 rest 71 69 84 32
    rw [htl]
    simp [strncmp]

theorem content_cases (request : List Nat) (params : Option (List Nat)) (result : List Nat) :
    (strncmp request (bytes "/sensors") 8 = 0 ∧
      test_server_content request params result 1024 = (56, html_content ++ List.replicate 968 0 ++ result.drop 1024))
    ∨ (strncmp request (bytes "/sensors") 8 ≠ 0 ∧
      test_server_content request params result 1024 = (54, not_found_content ++ List.replicate 970 0 ++ result.drop 1024)) := by
  have h1 : strlen html_content = 56 ∧ (cstr html_content).take 1024 = html_content := by decide
  have h2 : strlen not_found_content = 54 ∧ (cstr not_found_content).take 1024 = not_found_content := by
    decide
  have l1 : html_content.length = 56 := by decide
  have l2 : not_found_content.length = 54 := by decide
  by_cases h : strncmp request (bytes "/sensors") 8 = 0
  · left
    refine ⟨h, ?_⟩
    unfold test_server_content strncpy
    simp [h, h1.1, h1.2, l1]
  · right
    refine ⟨h, ?_⟩
    unfold test_server_content strncpy
    simp [h, h2.1, h2.2, l2]

theorem snprintf_fst_take (buf text : List Nat) (size : Nat) (h : text.length ≤ size - 1) :
    (snprintf buf size text).1.take text.length = text := by
  unfold snprintf
  simp only [List.take_of_length_le h]
  exact List.take_left' rfl

theorem snprintf_snd (buf text : List Nat) (size : Nat) :
    (snprintf buf size text).2 = (text.length : Int) := rfl

/-- C2. joy_server_ap: for every received payload that begins with "GET " and
whose header write succeeds (whatever the body write returns, so in particular
when both writes succeed), `tcp_server_recv_fn` issues exactly two writes, the
200 header first and the body second; the digits of the Content-Length header
denote the number of body bytes written, and the body is the whole page that
`test_server_content` selected for the parsed request. -/
theorem ap_get_header_then_body (env : Frame) (payload : List Nat)
    (hget : payload.take 4 = bytes "GET ") (hw : env.write_headers = ERR_OK) :
    ∃ digits page : List Nat,
      page = (if strncmp (split_request (work_buffer env.headers0 payload)).1
                (bytes "/sensors") 8 = 0 then html_content else not_found_content) ∧
      tcp_server_recv_fn env (some payload) =
        ([Call.tcp_write (ok_head ++ digits ++ ok_tail), Call.tcp_write page,
          Call.tcp_recved payload.length, Call.pbuf_free], ERR_OK) ∧
      writes (tcp_server_recv_fn env (some payload)).1 = [ok_head ++ digits ++ ok_tail, page] ∧
      decimalValue digits = some page.length := by
  have hpos : payload.length > 0 := by
    have h4 : (payload.take 4).length = 4 := by rw [hget]; decide
    rcases payload with _ | ⟨a, l⟩
    · simp at h4
    · simp
  have hm := strncmp_get_of_take env.headers0 payload hget
  have l1 : html_content.length = 56 := by decide
  have l2 : not_found_content.length = 54 := by decide
  have t1 : (render_headers 56 env.local_ip) = ok_head ++ fmt_d 56 ++ ok_tail := by
    simp [render_headers]
  have t2 : (render_headers 54 env.local_ip) = ok_head ++ fmt_d 54 ++ ok_tail := by
    simp [render_headers]
  have n1 : (ok_head ++ fmt_d 56 ++ ok_tail).length = 83 := by decide
  have n2 : (ok_head ++ fmt_d 54 ++ ok_tail).length = 83 := by decide
  have v1 : decimalValue (fmt_d 56) = some 56 := by decide
  have v2 : decimalValue (fmt_d 54) = some 54 := by decide
  rcases content_cases (split_request (work_buffer env.headers0 payload)).1
      (split_request (work_buffer env.headers0 payload)).2 env.result0 with ⟨hr, hc⟩ | ⟨hr, hc⟩
  · have key : tcp_server_recv_fn env (some payload) =
        ([Call.tcp_write (ok_head ++ fmt_d 56 ++ ok_tail), Call.tcp_write html_content,
          Call.tcp_recved payload.length, Call.pbuf_free], ERR_OK) := by
      unfold tcp_server_recv_fn tcp_server_recv_core
      simp only [hpos, hm, if_true, hc, t1, snprintf_snd, n1, hw]
      have hs := fun buf => snprintf_fst_take buf (ok_head ++ fmt_d 56 ++ ok_tail) 512
        (by rw [n1]; norm_num)
      rw [n1] at hs
      have hp : (html_content ++ List.replicate 968 0 ++ List.drop 1024 env.result0).take 56
          = html_content := by
        rw [List.append_assoc]
        exact List.take_left' l1
      have e1 : ((83 : Nat) : Int).toNat % 65536 = 83 := by decide
      have e2 : (56 : Int).toNat % 65536 = 56 := by decide
      rw [e1, e2, hs, hp]
      simp [ERR_OK]
    refine ⟨fmt_d 56, html_content, by rw [if_pos hr], key, by rw [key]; rfl, by rw [l1]; exact v1⟩
  · have key : tcp_server_recv_fn env (some payload) =
        ([Call.tcp_write (ok_head ++ fmt_d 54 ++ ok_tail), Call.tcp_write not_found_content,
          Call.tcp_recved payload.length, Call.pbuf_free], ERR_OK) := by
      unfold tcp_server_recv_fn tcp_server_recv_core
      simp only [hpos, hm, if_true, hc, t2, snprintf_snd, n2, hw]
      have hs := fun buf => snprintf_fst_take buf (ok_head ++ fmt_d 54 ++ ok_tail) 512
        (by rw [n2]; norm_num)
      rw [n2] at hs
      have hp : (not_found_content ++ List.replicate 970 0 ++ List.drop 1024 env.result0).take 54
          = not_found_content := by
        rw [List.append_assoc]
        exact List.take_left' l2
      have e1 : ((83 : Nat) : Int).toNat % 65536 = 83 := by decide
      have e2 : (54 : Int).toNat % 65536 = 54 := by decide
      rw [e1, e2, hs, hp]
      simp [ERR_OK]
    refine ⟨fmt_d 54, not_found_content, by rw [if_neg hr], key, by rw [key]; rfl, by rw [l2]; exact v2⟩

theorem work_buffer_take4 (headers0 payload : List Nat) :
    ∃ tl, work_buffer headers0 payload = payload.take 4 ++ tl := by
  unfold work_buffer
  dsimp only
  have hlen : (payload.take 4).length ≤ 4 := by simp
  split_ifs with h
  · have e : payload.take 511 = payload.take 4 ++ (payload.drop 4).take 507 := by
      conv_lhs => rw [← List.take_append_drop 4 payload]
      rw [List.take_append_eq_append_take]
      have : (payload.take 4).length = 4 := by simp; omega
      rw [List.take_of_length_le (by omega), this]
    rw [e, List.append_assoc, List.set_append_right _ _ (by omega)]
    exact ⟨_, rfl⟩
  · have e : payload.take payload.length = payload.take 4 ++ payload.drop 4 := by
      rw [List.take_length, List.take_append_drop]
    rw [e, List.append_assoc, List.set_append_right _ _ (by omega)]
    exact ⟨_, rfl⟩

theorem strncmp_get_ne (pre tl : List Nat) (hlen : pre.length ≤ 4)
    (hdiff : pre ≠ (bytes "GET ").take pre.length) :
    strncmp (bytes "GET ") (pre ++ tl) 4 ≠ 0 := by
  have hb : bytes "GET " = [71, 69, 84, 32] := by decide
  rw [hb] at hdiff ⊢
  match pre, hlen, hdiff with
  | [], _, hdiff => simp at hdiff
  | [a], _, hdiff =>
    have ha : ¬ 71 = a := by
      intro h; apply hdiff; simp [h]
    simp [strncmp, ha]; omega
  | [a, b], _, hdiff =>
    by_cases ha : 71 = a
    · by_cases hb : 69 = b
      · exact absurd (by simp [ha, hb]) hdiff
      · simp [strncmp, ← ha, hb]; omega
    · simp [strncmp, ha]; omega
  | [a, b, c], _, hdiff =>
    by_cases ha : 71 = a
    · by_cases hb : 69 = b
      · by_cases hc : 84 = c
        · exact absurd (by simp [ha, hb, hc]) hdiff
        · simp [strncmp, ← ha, ← hb, hc]; omega
      · simp [strncmp, ← ha, hb]; omega
    · simp [strncmp, ha]; omega
  | [a, b, c, d], _, hdiff =>
    by_cases ha : 71 = a
    · by_cases hb : 69 = b
      · by_cases hc : 84 = c
        · by_cases hd : 32 = d
          · exact absurd (by simp [ha, hb, hc, hd]) hdiff
          · simp [strncmp, ← ha, ← hb, ← hc, hd]; omega
        · simp [strncmp, ← ha, ← hb, hc]; omega
      · simp [strncmp, ← ha, hb]; omega
    · simp [strncmp, ha]; omega
  | _ :: _ :: _ :: _ :: _ :: _, hlen, _ => simp at hlen

/-- C3 (amended). joy_server_ap: for every received payload whose first bytes
(up to four) differ from those of "GET ", `tcp_server_recv_fn` writes nothing at
all (no header, no page) and closes nothing: it acknowledges the received bytes
with `tcp_recved`, frees the pbuf and returns `ERR_OK`. -/
theorem ap_other_method_is_ignored (env : Frame) (payload : List Nat)
    (hdiff : payload.take 4 ≠ (bytes "GET ").take payload.length) :
    tcp_server_recv_fn env (some payload) =
        ([Call.tcp_recved payload.length, Call.pbuf_free], ERR_OK) ∧
      writes (tcp_server_recv_fn env (some payload)).1 = [] := by
  have hpos : payload.length > 0 := by
    rcases payload with _ | ⟨a, l⟩
    · simp at hdiff
    · simp
  obtain ⟨tl, htl⟩ := work_buffer_take4 env.headers0 payload
  have hne : strncmp (bytes "GET ") (work_buffer env.headers0 payload) 4 ≠ 0 := by
    rw [htl]
    apply strncmp_get_ne _ _ (by simp)
    have h4 : (bytes "GET ").length = 4 := by decide
    have e : (bytes "GET ").take (payload.take 4).length = (bytes "GET ").take payload.length := by
      rw [List.length_take]
      rcases Nat.lt_or_ge payload.length 4 with h | h
      · rw [Nat.min_eq_right (by omega)]
      · rw [Nat.min_eq_left h, List.take_of_length_le (by omega), List.take_of_length_le (by omega)]
    rw [e]
    exact hdiff
  have key : tcp_server_recv_fn env (some payload) =
      ([Call.tcp_recved payload.length, Call.pbuf_free], ERR_OK) := by
    unfold tcp_server_recv_fn tcp_server_recv_core
    simp only [hpos, hne, if_true, if_false]
  exact ⟨key, by rw [key]; rfl⟩

/-- Witness of C2: a GET for `/sensors` with every write succeeding. -/
theorem ap_get_header_then_body_witness :
    ∃ digits page : List Nat,
      page = (if strncmp (split_request (work_buffer quiet_frame.headers0 get_sensors)).1
                (bytes "/sensors") 8 = 0 then html_content else not_found_content) ∧
      tcp_server_recv_fn quiet_frame (some get_sensors) =
        ([Call.tcp_write (ok_head ++ digits ++ ok_tail), Call.tcp_write page,
          Call.tcp_recved get_sensors.length, Call.pbuf_free], ERR_OK) ∧
      writes (tcp_server_recv_fn quiet_frame (some get_sensors)).1 =
        [ok_head ++ digits ++ ok_tail, page] ∧
      decimalValue digits = some page.length :=
  ap_get_header_then_body quiet_frame get_sensors (by decide) (by decide)

/-- Counterexample to C3 as stated: a POST request is non-empty, does not start
with "GET ", and the not-found page is not among the writes (there is no write
at all). -/
theorem ap_post_gets_no_page :
    post_root ≠ [] ∧ post_root.take 4 ≠ bytes "GET " ∧
      not_found_content ∉ writes (tcp_server_recv_fn quiet_frame (some post_root)).1 ∧
      writes (tcp_server_recv_fn quiet_frame (some post_root)).1 = [] := by
  decide

/-- Witness of the amended C3 at a POST request. -/
theorem ap_other_method_is_ignored_witness :
    post_root.take 4 ≠ (bytes "GET ").take post_root.length ∧
      tcp_server_recv_fn quiet_frame (some post_root) =
        ([Call.tcp_recved post_root.length, Call.pbuf_free], ERR_OK) ∧
      writes (tcp_server_recv_fn quiet_frame (some post_root)).1 = [] :=
  ⟨by decide, ap_other_method_is_ignored quiet_frame post_root (by decide)⟩

end JoyServerAp

/-! ## Closing a connection -/

namespace JoyServerAp

/-- Counterexample to C4 as stated: in joy_server_ap the sent callback makes no
call at all, and a connection that was accepted, served a GET and had both
writes acknowledged has seen no `tcp_close`. -/
theorem ap_sent_does_not_close :
    Call.tcp_close ∉ (tcp_server_sent 83).1 ∧
      closes (run (accepted true)
        [Event.recv quiet_frame (some get_sensors), Event.sent 83, Event.sent 56]).2 = 0 := by
  decide

/-- C4 (amended). In joy_server the sent callback `tcp_sent_callback` calls
`tcp_close` once and returns its result. In joy_server_ap the sent callback
`tcp_server_sent` makes no call and returns `ERR_OK`; there the connection is
closed by the poll callback `tcp_server_poll`, which calls `tcp_close` once. -/
theorem sent_callbacks_close_policy (tcp_close_err : Int) (len : Nat) :
    JoyServer.tcp_sent_callback tcp_close_err = ([Call.tcp_close], tcp_close_err) ∧
      tcp_server_sent len = ([], ERR_OK) ∧
      closes (tcp_server_poll tcp_close_err).1 = 1 := by
  refine ⟨rfl, rfl, ?_⟩
  unfold tcp_server_poll tcp_close_client_connection
  simp only [if_true]
  split_ifs <;> decide

/-- C6, the code at the failing input: a GET for `/sensors` whose header write
succeeds and whose body write fails with `ERR_MEM` (-1) ends with no `tcp_close`
and returns `ERR_OK`, while the same request with a failing header write is
closed at once. -/
theorem ap_failed_body_write_not_closed :
    closes (tcp_server_recv_fn { quiet_frame with write_body := -1 } (some get_sensors)).1 = 0 ∧
      (tcp_server_recv_fn { quiet_frame with write_body := -1 } (some get_sensors)).2 = ERR_OK ∧
      (writes (tcp_server_recv_fn { quiet_frame with write_body := -1 }
        (some get_sensors)).1).length = 2 ∧
      closes (tcp_server_recv_fn { quiet_frame with write_headers := -1 }
        (some get_sensors)).1 = 1 := by
  decide

/-- C8. `tcp_close_client_connection` on a non-null connection clears the arg,
poll, sent, recv and err registrations, then calls `tcp_close` exactly once; it
calls `tcp_abort` (exactly once, after the close) if and only if that close
failed, and then returns `ERR_ABRT`; when the close succeeded it performs no
abort and returns the `close_err` it was given; on a null handle it makes no call
and returns `close_err` unchanged. -/
theorem close_client_connection_contract (tcp_close_err close_err : Int) :
    tcp_close_client_connection true tcp_close_err close_err =
        ([Call.tcp_arg false, Call.tcp_poll none 0, Call.tcp_sent none, Call.tcp_recv none,
            Call.tcp_err none, Call.tcp_close]
          ++ (if tcp_close_err ≠ ERR_OK then [Call.tcp_abort] else []),
         if tcp_close_err ≠ ERR_OK then ERR_ABRT else close_err) ∧
      closes (tcp_close_client_connection true tcp_close_err close_err).1 = 1 ∧
      aborts (tcp_close_client_connection true tcp_close_err close_err).1
        = (if tcp_close_err ≠ ERR_OK then 1 else 0) ∧
      tcp_close_client_connection false tcp_close_err close_err = ([], close_err) := by
  unfold tcp_close_client_connection
  by_cases h : tcp_close_err = ERR_OK
  · simp [h, closes, aborts]
  · simp [h, closes, aborts]

theorem step_unregistered (s : Conn × List Call) (e : Event)
    (h : s.1 = ⟨false, none, none, none, none⟩) : step s e = s := by
  obtain ⟨c, tr⟩ := s
  simp only at h
  subst h
  cases e <;> simp [step, dispatch]

theorem run_unregistered (s : Conn × List Call) (es : List Event)
    (h : s.1 = ⟨false, none, none, none, none⟩) : run s es = s := by
  induction es with
  | nil => rfl
  | cons e es ih =>
    have : run s (e :: es) = run (step s e) es := rfl
    rw [this, step_unregistered s e h]
    exact ih

theorem recv_fn_keeps_poll (env : Frame) (p : Option (List Nat)) :
    (tcp_server_recv_fn env p).1.all (fun c => !sets_poll c) = true := by
  unfold tcp_server_recv_fn tcp_server_recv_core close_inline
  cases p with
  | none => dsimp only; split_ifs <;> rfl
  | some payload => dsimp only; split_ifs <;> rfl

theorem register_keeps_poll (cs : List Call) (c : Conn)
    (h : cs.all (fun c => !sets_poll c) = true) : (cs.foldl Conn.register c).poll = c.poll := by
  induction cs generalizing c with
  | nil => rfl
  | cons x xs ih =>
    rw [List.all_cons, Bool.and_eq_true] at h
    rw [List.foldl_cons, ih _ h.2]
    cases x <;> first | rfl | simp [sets_poll] at h

theorem step_keeps_poll (s : Conn × List Call) (e : Event) (he : is_poll e = false) :
    (step s e).1.poll = s.1.poll := by
  cases e with
  | poll x => simp [is_poll] at he
  | recv env p =>
    simp only [step, dispatch]
    split_ifs
    · exact register_keeps_poll _ _ (recv_fn_keeps_poll env p)
    · rfl
  | sent len =>
    simp only [step, dispatch]
    split_ifs <;> rfl

theorem run_keeps_poll (s : Conn × List Call) (es : List Event)
    (h : ∀ e ∈ es, is_poll e = false) : (run s es).1.poll = s.1.poll := by
  induction es generalizing s with
  | nil => rfl
  | cons e es ih =>
    have hrun : run s (e :: es) = run (step s e) es := rfl
    rw [hrun, ih _ (fun x hx => h x (List.mem_cons_of_mem _ hx)),
      step_keeps_poll s e (h e (List.mem_cons_self _ _))]

theorem run_append (s : Conn × List Call) (xs ys : List Event) :
    run s (xs ++ ys) = run (run s xs) ys := by
  unfold run
  rw [List.foldl_append]

theorem poll_step (s : Conn × List Call) (tcp_close_err : Int)
    (h : s.1.poll = some Callback.ap_tcp_server_poll) :
    step s (Event.poll tcp_close_err) =
      (⟨false, none, none, none, none⟩,
        s.2 ++ ([Call.tcp_arg false, Call.tcp_poll none 0, Call.tcp_sent none, Call.tcp_recv none,
            Call.tcp_err none, Call.tcp_close]
          ++ (if tcp_close_err ≠ ERR_OK then [Call.tcp_abort] else []))) := by
  obtain ⟨c, tr⟩ := s
  simp only at h
  by_cases hc : tcp_close_err = ERR_OK
  · simp [step, dispatch, h, tcp_server_poll, tcp_close_client_connection, Conn.register, hc]
  · simp [step, dispatch, h, tcp_server_poll, tcp_close_client_connection, Conn.register, hc]

/-- C9. joy_server_ap idle timeout: on an accepted connection, whatever receive
and sent events came before, the first poll event runs `tcp_server_poll`, which
clears the arg, poll, sent, recv and err registrations and then makes exactly
one `tcp_close` attempt (followed by `tcp_abort` only if that close failed).
Afterwards nothing is registered on the connection, so whatever events follow,
the program makes no further call: the trace ends with the calls of that poll,
and the number of `tcp_close` calls is the number made before the poll plus one
(exactly one for an idle connection, `before = []`). -/
theorem first_poll_closes_once (arg : Bool) (tcp_close_err : Int) (before later : List Event)
    (hfirst : ∀ e ∈ before, is_poll e = false) :
    run (accepted arg) (before ++ Event.poll tcp_close_err :: later) =
        (⟨false, none, none, none, none⟩,
          (run (accepted arg) before).2
            ++ ([Call.tcp_arg false, Call.tcp_poll none 0, Call.tcp_sent none,
                  Call.tcp_recv none, Call.tcp_err none, Call.tcp_close]
              ++ (if tcp_close_err ≠ ERR_OK then [Call.tcp_abort] else []))) ∧
      closes (run (accepted arg) (before ++ Event.poll tcp_close_err :: later)).2
        = closes (run (accepted arg) before).2 + 1 ∧
      closes (run (accepted arg) (Event.poll tcp_close_err :: later)).2 = 1 := by
  have hacc : (accepted arg).1.poll = some Callback.ap_tcp_server_poll := by
    cases arg <;> rfl
  have main : ∀ pre : List Event, (∀ e ∈ pre, is_poll e = false) →
      run (accepted arg) (pre ++ Event.poll tcp_close_err :: later) =
        (⟨false, none, none, none, none⟩,
          (run (accepted arg) pre).2
            ++ ([Call.tcp_arg false, Call.tcp_poll none 0, Call.tcp_sent none,
                  Call.tcp_recv none, Call.tcp_err none, Call.tcp_close]
              ++ (if tcp_close_err ≠ ERR_OK then [Call.tcp_abort] else []))) := by
    intro pre hpre
    have hp : (run (accepted arg) pre).1.poll = some Callback.ap_tcp_server_poll := by
      rw [run_keeps_poll _ _ hpre, hacc]
    have hstep := poll_step (run (accepted arg) pre) tcp_close_err hp
    have hcons : run (run (accepted arg) pre) (Event.poll tcp_close_err :: later)
        = run (step (run (accepted arg) pre) (Event.poll tcp_close_err)) later := rfl
    rw [run_append, hcons, run_unregistered _ later (by rw [hstep]), hstep]
  have hcount : ∀ tr : List Call,
      closes (tr ++ ([Call.tcp_arg false, Call.tcp_poll none 0, Call.tcp_sent none,
                  Call.tcp_recv none, Call.tcp_err none, Call.tcp_close]
              ++ (if tcp_close_err ≠ ERR_OK then [Call.tcp_abort] else []))) = closes tr + 1 := by
    intro tr
    unfold closes
    rw [List.count_append]
    split_ifs <;> simp
  refine ⟨main before hfirst, ?_, ?_⟩
  · rw [main before hfirst, hcount]
  · have h0 := main [] (by simp)
    rw [List.nil_append] at h0
    rw [h0, hcount]
    cases arg <;> rfl

/-- Witness of C9: a GET is served and its header acknowledged, then the poll
event comes, then a late receive and a second poll. -/
theorem first_poll_closes_once_witness :
    closes (run (accepted true)
        ([Event.recv quiet_frame (some get_sensors), Event.sent 83]
          ++ Event.poll ERR_OK :: [Event.recv quiet_frame none, Event.poll ERR_OK])).2
      = closes (run (accepted true)
          [Event.recv quiet_frame (some get_sensors), Event.sent 83]).2 + 1 :=
  (first_poll_closes_once true ERR_OK [Event.recv quiet_frame (some get_sensors), Event.sent 83]
    [Event.recv quiet_frame none, Event.poll ERR_OK] (by decide)).2.1

end JoyServerAp

/-! ## Truncation and the header guard of joy_server_ap -/

namespace JoyServerAp

theorem work_buffer_long (headers0 payload : List Nat) (hlong : payload.length > 511)
    (hbuf : headers0.length = 512) :
    work_buffer headers0 payload = payload.take 511 ++ [0] := by
  unfold work_buffer
  simp only [show (512 : Nat) - 1 = 511 from rfl]
  rw [if_pos (by omega)]
  have hl : (payload.take 511).length = 511 := by simp; omega
  rw [List.set_append_right _ _ (by omega), hl]
  obtain ⟨x, hx⟩ : ∃ x, headers0.drop 511 = [x] := by
    have : (headers0.drop 511).length = 1 := by simp; omega
    match headers0.drop 511, this with
    | [x], _ => exact ⟨x, rfl⟩
  rw [hx]
  rfl

theorem work_buffer_exact (headers0 payload : List Nat) (hlen : payload.length = 511)
    (hbuf : headers0.length = 512) :
    work_buffer headers0 payload = payload ++ [0] := by
  unfold work_buffer
  simp only [show (512 : Nat) - 1 = 511 from rfl]
  rw [if_neg (by omega), List.take_length]
  rw [List.set_append_right _ _ (by omega), hlen]
  obtain ⟨x, hx⟩ : ∃ x, headers0.drop 511 = [x] := by
    have : (headers0.drop 511).length = 1 := by simp; omega
    match headers0.drop 511, this with
    | [x], _ => exact ⟨x, rfl⟩
  rw [hx]
  rfl

theorem recv_core_of_buffer (gen : List Nat → Option (List Nat) → List Nat → Nat → Int × List Nat)
    (env : Frame) (p q : List Nat) (hp : p.length > 0) (hq : q.length > 0)
    (hbuf : work_buffer env.headers0 p = work_buffer env.headers0 q) :
    response (tcp_server_recv_core gen env (some p)).1
        = response (tcp_server_recv_core gen env (some q)).1 ∧
      writes (tcp_server_recv_core gen env (some p)).1
        = writes (tcp_server_recv_core gen env (some q)).1 ∧
      (tcp_server_recv_core gen env (some p)).2 = (tcp_server_recv_core gen env (some q)).2 := by
  unfold tcp_server_recv_core
  simp only [hp, hq, if_true, hbuf]
  split_ifs <;> simp [response, is_recved, writes, close_inline]

/-- C7. joy_server_ap receive truncation: for every received payload longer than
511 bytes (and the 512-byte `headers` buffer), the work buffer holds the first
511 payload bytes followed by the NUL, exactly as it does when that 511-byte
prefix is received alone; the two runs make the same calls apart from the byte
count passed to `tcp_recved` (same writes with the same data, same closes) and
return the same value. -/
theorem ap_long_payload_truncated (env : Frame) (payload : List Nat)
    (hlong : payload.length > 511) (hbuf : env.headers0.length = 512) :
    work_buffer env.headers0 payload = payload.take 511 ++ [0] ∧
      work_buffer env.headers0 (payload.take 511) = payload.take 511 ++ [0] ∧
      response (tcp_server_recv_fn env (some payload)).1
        = response (tcp_server_recv_fn env (some (payload.take 511))).1 ∧
      writes (tcp_server_recv_fn env (some payload)).1
        = writes (tcp_server_recv_fn env (some (payload.take 511))).1 ∧
      (tcp_server_recv_fn env (some payload)).2
        = (tcp_server_recv_fn env (some (payload.take 511))).2 := by
  have hl : (payload.take 511).length = 511 := by simp; omega
  have h1 := work_buffer_long env.headers0 payload hlong hbuf
  have h2 := work_buffer_exact env.headers0 (payload.take 511) hl hbuf
  exact ⟨h1, h2, recv_core_of_buffer test_server_content env payload (payload.take 511)
    (by omega) (by omega) (by rw [h1, h2])⟩

/-- Witness of C7: 600 bytes, a GET for `/sensors` followed by padding. -/
theorem ap_long_payload_truncated_witness :
    (get_sensors ++ List.replicate 575 65).length > 511 ∧
      work_buffer quiet_frame.headers0 (get_sensors ++ List.replicate 575 65)
        = (get_sensors ++ List.replicate 575 65).take 511 ++ [0] ∧
      work_buffer quiet_frame.headers0 ((get_sensors ++ List.replicate 575 65).take 511)
        = (get_sensors ++ List.replicate 575 65).take 511 ++ [0] ∧
      response (tcp_server_recv_fn quiet_frame (some (get_sensors ++ List.replicate 575 65))).1
        = response (tcp_server_recv_fn quiet_frame
            (some ((get_sensors ++ List.replicate 575 65).take 511))).1 ∧
      writes (tcp_server_recv_fn quiet_frame (some (get_sensors ++ List.replicate 575 65))).1
        = writes (tcp_server_recv_fn quiet_frame
            (some ((get_sensors ++ List.replicate 575 65).take 511))).1 ∧
      (tcp_server_recv_fn quiet_frame (some (get_sensors ++ List.replicate 575 65))).2
        = (tcp_server_recv_fn quiet_frame
            (some ((get_sensors ++ List.replicate 575 65).take 511))).2 :=
  ⟨by decide, ap_long_payload_truncated quiet_frame (get_sensors ++ List.replicate 575 65)
    (by decide) (by decide)⟩

/-- C10. joy_server_ap header overflow guard, for any content generator in the
place of `test_server_content` and any local address string: whenever a GET
request is being answered and the rendered header is longer than 511 bytes,
`tcp_server_recv_fn` issues no `tcp_write` at all and calls `tcp_close` exactly
once; it returns the close error if the close failed and `ERR_OK` otherwise
(after clearing the connection argument). -/
theorem ap_header_overflow_closes
    (gen : List Nat → Option (List Nat) → List Nat → Nat → Int × List Nat)
    (env : Frame) (payload : List Nat) (hpos : payload.length > 0)
    (hget : strncmp (bytes "GET ") (work_buffer env.headers0 payload) 4 = 0)
    (hover : (render_headers
        (gen (split_request (work_buffer env.headers0 payload)).1
          (split_request (work_buffer env.headers0 payload)).2 env.result0 1024).1
        env.local_ip).length > 511) :
    tcp_server_recv_core gen env (some payload) =
        (if env.close ≠ ERR_OK then ([Call.tcp_close], env.close)
         else ([Call.tcp_close, Call.tcp_arg false], ERR_OK)) ∧
      writes (tcp_server_recv_core gen env (some payload)).1 = [] ∧
      closes (tcp_server_recv_core gen env (some payload)).1 = 1 ∧
      (tcp_server_recv_core gen env (some payload)).2
        = (if env.close ≠ ERR_OK then env.close else ERR_OK) := by
  have hlen : ((render_headers
        (gen (split_request (work_buffer env.headers0 payload)).1
          (split_request (work_buffer env.headers0 payload)).2 env.result0 1024).1
        env.local_ip).length : Int) > 512 - 1 := by
    omega
  have key : tcp_server_recv_core gen env (some payload) = close_inline [] env.close := by
    unfold tcp_server_recv_core
    simp only [hpos, hget, if_true, snprintf_snd, hlen]
  rw [key]
  unfold close_inline
  split_ifs with h <;> simp [writes, closes]

/-- Witness of C10: a generator that yields no content and a local address
string of 600 bytes make the 302 header 649 bytes long. -/
theorem ap_header_overflow_closes_witness :
    tcp_server_recv_core (fun _ _ result _ => (0, result))
        { quiet_frame with local_ip := List.replicate 600 49 } (some get_sensors) =
        ([Call.tcp_close, Call.tcp_arg false], ERR_OK) :=
  (ap_header_overflow_closes (fun _ _ result _ => (0, result))
    { quiet_frame with local_ip := List.replicate 600 49 } get_sensors
    (by decide) (by decide) (by decide)).1

end JoyServerAp

/-! ## The push loop of the client -/

namespace BitdogClient

theorem erase_length_le (l : List Nat) (a : Nat) : (l.erase a).length ≤ l.length := by
  rw [List.length_erase]
  split_ifs <;> omega

theorem close_pcb_length_le (c : Client) (pcb : Nat) (e : Int) :
    (close_pcb c pcb e).live.length ≤ c.live.length := by
  unfold close_pcb
  split_ifs
  · exact erase_length_le _ _
  · exact le_rfl

theorem step_live_length (c : Client) (e : Event) :
    (step c e).live.length ≤ c.live.length + (if is_push e then 1 else 0) := by
  cases e with
  | tick link_up tcp_new_ok connect_err =>
    cases link_up <;> simp [step, is_push, send_sensor_data]
    split_ifs <;> simp
  | connected pcb err tcp_close_err =>
    have h := close_pcb_length_le c pcb tcp_close_err
    simp only [step, is_push]
    split_ifs <;> simp <;> omega
  | recv pcb p tcp_close_err =>
    have h := close_pcb_length_le c pcb tcp_close_err
    simp only [step, is_push]
    split_ifs <;> simp <;> omega

/-- Counterexample to C5 as stated: two consecutive ticks with the link up, with
no callback delivered in between, leave two outbound connections open; the
second `send_sensor_data` ran while the connection of the first tick was open. -/
theorem two_ticks_two_connections :
    (run Client.boot [Event.tick true true 0]).live = [0] ∧
      (run Client.boot [Event.tick true true 0, Event.tick true true 0]).live = [1, 0] ∧
      ¬ (run Client.boot [Event.tick true true 0, Event.tick true true 0]).live.length ≤ 1 := by
  decide

/-- C5 (amended). Client role: every tick of the main loop with the link up
calls `send_sensor_data`, whether or not a connection of an earlier tick is still
open; each such call opens at most one new connection, so over every sequence
of ticks and connection callbacks the number of open outbound connections is at
most the number open at the start plus the number of link-up ticks. -/
theorem pushes_bound_open_connections (c : Client) (es : List Event) :
    (∀ (tcp_new_ok : Bool) (connect_err : Int),
        step c (Event.tick true tcp_new_ok connect_err)
          = send_sensor_data c tcp_new_ok connect_err) ∧
      (run c es).live.length ≤ c.live.length + es.countP is_push := by
  refine ⟨fun _ _ => rfl, ?_⟩
  induction es generalizing c with
  | nil => simp [run]
  | cons e es ih =>
    have hrun : run c (e :: es) = run (step c e) es := rfl
    rw [hrun, List.countP_cons]
    have h1 := ih (step c e)
    have h2 := step_live_length c e
    omega

end BitdogClient

/-! ## The sampler -/

theorem read_analog_x_num (r : Nat) (hr : r < 65536) :
    read_analog_x r =
      (((if r > 2448 then (r : Int) - 2448 else if r < 1648 then (r : Int) - 1648 else 0 : Int)
        : ℚ)) / 1647 := by
  unfold read_analog_x
  simp only [Nat.mod_eq_of_lt hr]
  have e : (2047 : ℚ) - ((400 : Int) : ℚ) = 1647 := by norm_num
  rw [e]
  by_cases h1 : r > 2448
  · rw [if_pos (by omega), if_pos h1]
    congr 2
    omega
  · by_cases h2 : r < 1648
    · rw [if_neg (by omega), if_pos (by omega), if_neg h1, if_pos h2]
      congr 2
      omega
    · rw [if_neg (by omega), if_neg (by omega), if_neg h1, if_neg h2]
      simp

theorem read_analog_y_eq_x (r : Nat) : read_analog_y r = read_analog_x r := rfl

/-- C15. Axis normalisation equals the reference definition: for every raw
12-bit reading `r`, `read_analog_x` and `read_analog_y` return 0 when
`|r - 2048| ≤ 400` (1648 and 2448 included), `(r - 2448) / 1647` when `r > 2448`
and `(r - 1648) / 1647` when `r < 1648`, a negative value (the subtraction is
done in `int`, nothing wraps); so `k / 1647` for `r = 2448 + k` and `-k / 1647`
for `r + k = 1648`. Floats are taken as exact rationals. -/
theorem axis_normalisation_reference (r : Nat) (hr : r ≤ 4095) :
    (|(r : Int) - 2048| ≤ 400 → read_analog_x r = 0) ∧
      (r > 2448 → read_analog_x r = ((r : ℚ) - 2448) / 1647) ∧
      (r < 1648 → read_analog_x r = ((r : ℚ) - 1648) / 1647 ∧ read_analog_x r < 0) ∧
      (∀ k : Nat, 0 < k → r = 2448 + k → read_analog_x r = (k : ℚ) / 1647) ∧
      (∀ k : Nat, 0 < k → r + k = 1648 → read_analog_x r = -(k : ℚ) / 1647) ∧
      read_analog_y r = read_analog_x r := by
  have hnum := read_analog_x_num r (by omega)
  have hhi : r > 2448 → read_analog_x r = ((r : ℚ) - 2448) / 1647 := by
    intro h
    rw [hnum, if_pos h]
    push_cast
    rfl
  have hlo : r < 1648 → read_analog_x r = ((r : ℚ) - 1648) / 1647 := by
    intro h
    rw [hnum, if_neg (by omega), if_pos h]
    push_cast
    rfl
  refine ⟨?_, hhi, ?_, ?_, ?_, rfl⟩
  · intro h
    rw [abs_le] at h
    rw [hnum, if_neg (by omega), if_neg (by omega)]
    simp
  · intro h
    refine ⟨hlo h, ?_⟩
    rw [hlo h]
    have : (r : ℚ) < 1648 := by exact_mod_cast h
    apply div_neg_of_neg_of_pos <;> linarith
  · intro k _ hk
    rw [hhi (by omega), hk]
    push_cast
    ring
  · intro k _ hk
    rw [hlo (by omega)]
    have : (r : ℚ) = 1648 - k := by
      have : ((r + k : Nat) : ℚ) = 1648 := by rw [hk]; norm_num
      push_cast at this
      linarith
    rw [this]
    ring

/-- Witness of C15 at the raw reading 3000. -/
theorem axis_normalisation_reference_witness :
    (3000 : Nat) ≤ 4095 ∧ read_analog_x 3000 = ((3000 : ℚ) - 2448) / 1647 :=
  ⟨by decide, (axis_normalisation_reference 3000 (by decide)).2.1 (by decide)⟩

/-- C16, the code at the failing input: the raw reading 0 is normalised to
`-1648 / 1647`, which is below -1, on both axes. -/
theorem axis_below_minus_one_at_zero :
    read_analog_x 0 = -1648 / 1647 ∧ read_analog_x 0 < -1 ∧
      read_analog_y 0 = -1648 / 1647 ∧ read_analog_y 0 < -1 := by
  have h : read_analog_x 0 = -1648 / 1647 := by
    rw [read_analog_x_num 0 (by decide)]
    norm_num
  have hy : read_analog_y 0 = read_analog_x 0 := rfl
  rw [hy, h]
  norm_num

theorem axis_range_from_one (r : Nat) (h1 : 1 ≤ r) (hr : r ≤ 4095) :
    -1 ≤ read_analog_x r ∧ read_analog_x r ≤ 1 := by
  rw [read_analog_x_num r (by omega)]
  have h1647 : (0 : ℚ) < 1647 := by norm_num
  rw [le_div_iff₀ h1647, div_le_iff₀ h1647]
  split_ifs with ha hb
  · constructor
    · have : (-1647 : Int) ≤ (r : Int) - 2448 := by omega
      have := (Int.cast_le (R := ℚ)).2 this
      push_cast at this ⊢
      linarith
    · have : (r : Int) - 2448 ≤ 1647 := by omega
      have := (Int.cast_le (R := ℚ)).2 this
      push_cast at this ⊢
      linarith
  · constructor
    · have : (-1647 : Int) ≤ (r : Int) - 1648 := by omega
      have := (Int.cast_le (R := ℚ)).2 this
      push_cast at this ⊢
      linarith
    · have : (r : Int) - 1648 ≤ 1647 := by omega
      have := (Int.cast_le (R := ℚ)).2 this
      push_cast at this ⊢
      linarith
  · norm_num

/-- C17. Axis normalisation is monotone and has no jump: for raw readings
`r1 ≤ r2 ≤ 4095` the output for `r1` is at most the output for `r2`, and for
every `r ≤ 4094` the output for `r + 1` exceeds the output for `r` by at most
`1 / 1647` (by exactly that across 2448/2449 and across 1647/1648). -/
theorem axis_monotone_continuous (r1 r2 r : Nat) (h12 : r1 ≤ r2) (h2 : r2 ≤ 4095)
    (hr : r ≤ 4094) :
    read_analog_x r1 ≤ read_analog_x r2 ∧
      0 ≤ read_analog_x (r + 1) - read_analog_x r ∧
      read_analog_x (r + 1) - read_analog_x r ≤ 1 / 1647 ∧
      read_analog_x 2449 - read_analog_x 2448 = 1 / 1647 ∧
      read_analog_x 1648 - read_analog_x 1647 = 1 / 1647 := by
  have h1647 : (0 : ℚ) < 1647 := by norm_num
  refine ⟨?_, ?_, ?_, ?_, ?_⟩
  · rw [read_analog_x_num r1 (by omega), read_analog_x_num r2 (by omega)]
    apply div_le_div_of_nonneg_right _ h1647.le
    apply (Int.cast_le (R := ℚ)).2
    split_ifs <;> omega
  · rw [read_analog_x_num r (by omega), read_analog_x_num (r + 1) (by omega), ← sub_div]
    apply div_nonneg _ h1647.le
    rw [sub_nonneg]
    apply (Int.cast_le (R := ℚ)).2
    split_ifs <;> omega
  · rw [read_analog_x_num r (by omega), read_analog_x_num (r + 1) (by omega), ← sub_div]
    apply div_le_div_of_nonneg_right _ h1647.le
    rw [← Int.cast_sub]
    have : (1 : ℚ) = ((1 : Int) : ℚ) := by norm_num
    rw [this]
    apply (Int.cast_le (R := ℚ)).2
    split_ifs <;> omega
  · rw [read_analog_x_num 2449 (by decide), read_analog_x_num 2448 (by decide)]
    norm_num
  · rw [read_analog_x_num 1648 (by decide), read_analog_x_num 1647 (by decide)]
    norm_num

/-- Witness of C17 across the lower dead-zone edge. -/
theorem axis_monotone_continuous_witness :
    read_analog_x 1647 ≤ read_analog_x 1648 ∧
      0 ≤ read_analog_x (2448 + 1) - read_analog_x 2448 ∧
      read_analog_x (2448 + 1) - read_analog_x 2448 ≤ 1 / 1647 :=
  ⟨(axis_monotone_continuous 1647 1648 2448 (by decide) (by decide) (by decide)).1,
   (axis_monotone_continuous 1647 1648 2448 (by decide) (by decide) (by decide)).2.1,
   (axis_monotone_continuous 1647 1648 2448 (by decide) (by decide) (by decide)).2.2.1⟩

/-! ## The compass and the temperature -/

/-- C18. Compass derivation: for all `x`, `y`, `get_wind_rose_direction` returns
the label that two independent threshold checks fix, east iff `x > 0.5`, west
iff `x < -0.5`, north iff `y > 0.5`, south iff `y < -0.5`; it returns CENTRO
exactly when `|x| ≤ 0.5` and `|y| ≤ 0.5`; and (0.6, 0.6) gives NORDESTE,
(0, 0.6) NORTE, (0.2, 0.2) CENTRO, (-0.6, -0.6) SUDOESTE. -/
theorem compass_by_independent_checks (x y : ℚ) :
    JoyServer.get_wind_rose_direction x y = compass_label (side x) (side y) ∧
      (JoyServer.get_wind_rose_direction x y = "CENTRO" ↔ |x| ≤ 1 / 2 ∧ |y| ≤ 1 / 2) ∧
      JoyServer.get_wind_rose_direction (6 / 10) (6 / 10) = "NORDESTE" ∧
      JoyServer.get_wind_rose_direction 0 (6 / 10) = "NORTE" ∧
      JoyServer.get_wind_rose_direction (2 / 10) (2 / 10) = "CENTRO" ∧
      JoyServer.get_wind_rose_direction (-(6 / 10)) (-(6 / 10)) = "SUDOESTE" := by
  refine ⟨?_, ?_, ?_, ?_, ?_, ?_⟩
  · unfold JoyServer.get_wind_rose_direction side
    dsimp only
    split_ifs <;> rfl
  · unfold JoyServer.get_wind_rose_direction
    dsimp only
    rw [abs_le, abs_le]
    split_ifs with h1 h2 h3 h4 h5 h6 h7 h8
    all_goals first
      | (constructor
         · intro h; exact absurd h (by decide)
         · rintro ⟨⟨_, _⟩, ⟨_, _⟩⟩; exfalso; linarith)
      | (constructor
         · intro _; refine ⟨⟨?_, ?_⟩, ⟨?_, ?_⟩⟩ <;> linarith
         · intro _; rfl)
  · unfold JoyServer.get_wind_rose_direction; norm_num
  · unfold JoyServer.get_wind_rose_direction; norm_num
  · unfold JoyServer.get_wind_rose_direction; norm_num
  · unfold JoyServer.get_wind_rose_direction; norm_num

/-- C19. Temperature conversion: for every raw 12-bit reading `r`, the inline
computation of `update_readings` and `read_internal_temperature` (through
`voltage_to_temperature_c`) both yield `27 - (V - 0.706) / 0.001721` with
`V = r * 3.3 / 4096`, in exact arithmetic, so they agree on every `r`. -/
theorem temperature_conversion (r : Nat) (hr : r ≤ 4095) :
    update_readings_temperature r = 27 - ((r : ℚ) * 3.3 / 4096 - 0.706) / 0.001721 ∧
      read_internal_temperature r = 27 - ((r : ℚ) * 3.3 / 4096 - 0.706) / 0.001721 ∧
      update_readings_temperature r = read_internal_temperature r ∧
      ∀ (adc_x adc_y : Nat) (gpio_a gpio_b : Bool),
        (update_readings adc_x adc_y r gpio_a gpio_b).temperature = read_internal_temperature r := by
  have hm : r % 65536 = r := Nat.mod_eq_of_lt (by omega)
  have h1 : update_readings_temperature r
      = 27 - ((r : ℚ) * 3.3 / 4096 - 0.706) / 0.001721 := by
    have e : (1 <<< 12 : Nat) = 4096 := by decide
    unfold update_readings_temperature
    simp only [hm, e]
    norm_num
    ring
  have h2 : read_internal_temperature r
      = 27 - ((r : ℚ) * 3.3 / 4096 - 0.706) / 0.001721 := by
    unfold read_internal_temperature voltage_to_temperature_c ADC_VREF ADC_RESOLUTION
    simp only [hm]
    norm_num
    ring
  refine ⟨h1, h2, by rw [h1, h2], ?_⟩
  intro adc_x adc_y gpio_a gpio_b
  show update_readings_temperature r = read_internal_temperature r
  rw [h1, h2]

/-- Witness of C19 at the raw reading 876 (about 27 °C). -/
theorem temperature_conversion_witness :
    (876 : Nat) ≤ 4095 ∧ update_readings_temperature 876 = read_internal_temperature 876 :=
  ⟨by decide, (temperature_conversion 876 (by decide)).2.2.1⟩

/-! ## The redirect, the query split and the debug print of joy_server_ap -/

namespace JoyServerAp

/-- The `else` branch of step 8 of the handler body, for any content generator:
when the generator yields a non-positive length for a GET request, the header
fits and its write succeeds, the only write is the rendered 302 format. With
`test_server_content` this branch is not taken: see `test_server_content_pos`. -/
theorem redirect_write
    (gen : List Nat → Option (List Nat) → List Nat → Nat → Int × List Nat)
    (env : Frame) (payload : List Nat) (hpos : payload.length > 0)
    (hget : strncmp (bytes "GET ") (work_buffer env.headers0 payload) 4 = 0)
    (hnone : (gen (split_request (work_buffer env.headers0 payload)).1
        (split_request (work_buffer env.headers0 payload)).2 env.result0 1024).1 ≤ 0)
    (hfit : (found_head ++ cstr env.local_ip ++ found_tail).length ≤ 511)
    (hw : env.write_headers = ERR_OK) :
    tcp_server_recv_core gen env (some payload) =
      ([Call.tcp_write (found_head ++ cstr env.local_ip ++ found_tail),
        Call.tcp_recved payload.length, Call.pbuf_free], ERR_OK) := by
  have hr : render_headers (gen (split_request (work_buffer env.headers0 payload)).1
      (split_request (work_buffer env.headers0 payload)).2 env.result0 1024).1 env.local_ip
      = found_head ++ cstr env.local_ip ++ found_tail := by
    unfold render_headers
    rw [if_neg (by omega)]
  have hmod : ((((found_head ++ cstr env.local_ip ++ found_tail).length : Nat) : Int)).toNat % 65536
      = (found_head ++ cstr env.local_ip ++ found_tail).length := by
    rw [Int.toNat_ofNat]
    exact Nat.mod_eq_of_lt (by omega)
  unfold tcp_server_recv_core
  simp only [hpos, hget, if_true, hr, snprintf_snd, hmod]
  rw [if_neg (by omega), snprintf_fst_take _ _ _ (by omega)]
  simp only [hw, ne_eq, not_true_eq_false, if_false]
  rw [if_neg (by omega)]

/-- The shipped content generator never yields an empty page: its length is
positive for every request, so the handler always takes the 200 branch. -/
theorem test_server_content_pos (request : List Nat) (params : Option (List Nat))
    (result : List Nat) (result_size : Nat) :
    0 < (test_server_content request params result result_size).1 := by
  have h1 : strlen html_content = 56 := by decide
  have h2 : strlen not_found_content = 54 := by decide
  unfold test_server_content
  split_ifs <;> simp [h1, h2]

theorem strchr_eq_none_iff (l : List Nat) (c : Nat) (hc : c ≠ 0) :
    strchr l c = none ↔ c ∉ cstr l := by
  induction l with
  | nil => simp [strchr, cstr]
  | cons b rest ih =>
    unfold strchr
    by_cases hbc : b = c
    · subst hbc
      simp [cstr, List.takeWhile_cons, hc]
    · by_cases hb0 : b = 0
      · subst hb0
        simp [cstr, List.takeWhile_cons, hbc]
      · rw [if_neg hbc, if_neg hb0]
        have : cstr (b :: rest) = b :: cstr rest := by
          simp [cstr, List.takeWhile_cons, hb0]
        rw [this, Option.map_eq_none', ih]
        simp [Ne.symm hbc]

theorem split_request_params_none_iff (headers : List Nat) :
    (split_request headers).2 = none ↔ 63 ∉ cstr (headers.drop 4) := by
  rw [← strchr_eq_none_iff _ 63 (by decide)]
  simp only [split_request]
  split <;> simp_all

/-- C12, the code at the failing input: the request
`GET /sensors HTTP/1.1` followed by a `Referer` line that holds a `?` has no `?`
in its target, yet the parameters passed to `test_server_content` are present:
they point just after the `?` of the header line. -/
theorem ap_question_mark_in_later_header :
    get_with_referer.take 4 = bytes "GET " ∧
      63 ∉ (get_with_referer.drop 4).takeWhile (fun b => b ≠ 32) ∧
      (split_request (work_buffer quiet_frame.headers0 get_with_referer)).2 ≠ none ∧
      (split_request (work_buffer quiet_frame.headers0 get_with_referer)).2.map
          (fun q => q.take 7) = some (bytes "a=1\r\n\r\n") := by
  decide

theorem strchr_lt (l : List Nat) (c i : Nat) (h : strchr l c = some i) : i < l.length := by
  induction l generalizing i with
  | nil => simp [strchr] at h
  | cons b rest ih =>
    unfold strchr at h
    split_ifs at h with h1 h2
    · simp at h; subst h; simp
    · rcases hs : strchr rest c with _ | j
      · simp [hs] at h
      · simp [hs] at h
        subst h
        have := ih j hs
        simp; omega

theorem work_buffer_length (headers0 payload : List Nat) (hbuf : headers0.length = 512) :
    (work_buffer headers0 payload).length = 512 := by
  unfold work_buffer
  simp only [show (512 : Nat) - 1 = 511 from rfl, List.length_set, List.length_append,
    List.length_take, List.length_drop]
  by_cases h : payload.length > 511
  · rw [if_pos h]; omega
  · rw [if_neg h]; omega

theorem work_buffer_terminated (headers0 payload : List Nat) (hbuf : headers0.length = 512) :
    (work_buffer headers0 payload).getD 511 1 = 0 := by
  unfold work_buffer
  simp only [show (512 : Nat) - 1 = 511 from rfl]
  rw [List.getD_eq_getElem?_getD, List.getElem?_set_self]
  · rfl
  · simp only [List.length_append, List.length_take, List.length_drop]
    by_cases h : payload.length > 511
    · rw [if_pos h]; omega
    · rw [if_neg h]; omega

theorem cstr_length_le_of_nul (l : List Nat) (i : Nat) (hi : i < l.length)
    (h : l.getD i 1 = 0) : (cstr l).length ≤ i := by
  induction l generalizing i with
  | nil => simp at hi
  | cons b rest ih =>
    by_cases hb : b = 0
    · simp [cstr, List.takeWhile_cons, hb]
    · have hc : cstr (b :: rest) = b :: cstr rest := by
        simp [cstr, List.takeWhile_cons, hb]
      rw [hc]
      cases i with
      | zero => simp at h; exact absurd h hb
      | succ j =>
        have := ih j (by simpa using hi) (by simpa using h)
        simp; omega

theorem parsing_inside_buffer (headers0 payload : List Nat) (hbuf : headers0.length = 512) :
    (work_buffer headers0 payload).length = 512 ∧
      (cstr ((work_buffer headers0 payload).drop 4)).length ≤ 507 ∧
      ∀ c i : Nat, strchr ((work_buffer headers0 payload).drop 4) c = some i → 4 + i < 512 := by
  have hlen := work_buffer_length headers0 payload hbuf
  have hterm := work_buffer_terminated headers0 payload hbuf
  have hdl : ((work_buffer headers0 payload).drop 4).length = 508 := by
    rw [List.length_drop, hlen]
  refine ⟨hlen, ?_, ?_⟩
  · apply cstr_length_le_of_nul _ 507 (by omega)
    rw [List.getD_eq_getElem?_getD, List.getElem?_drop]
    rw [List.getD_eq_getElem?_getD] at hterm
    exact hterm
  · intro c i h
    have := strchr_lt _ c i h
    omega

/-- C14, the code at the failing input: for the request `GET /%s HTTP/1.1` the
string handed to `printf` as its format starts with `/%s`, a conversion
directive with no argument behind it, so the run of `tcp_server_recv_fn` has no
defined behaviour; a request without `%` has, and the empty payload is not
treated as a GET (the pbuf is freed and nothing is written). -/
theorem ap_percent_directive_undefined :
    tcp_server_recv_defined quiet_frame (some get_percent_s) = false ∧
      (split_request (work_buffer quiet_frame.headers0 get_percent_s)).1.take 3 = bytes "/%s" ∧
      tcp_server_recv_defined quiet_frame (some get_sensors) = true ∧
      tcp_server_recv_fn quiet_frame (some []) = ([Call.pbuf_free], ERR_OK) := by
  decide

end JoyServerAp

/-! ## The empty notification -/

/-- C13. Peer close before data: in each of the three receive handlers
(`tcp_server_recv_fn` of joy_server, `tcp_server_recv_fn` of joy_server_ap,
`http_client_recv` of the client) the notification without a pbuf causes exactly
one `tcp_close` call and no `tcp_write`, and the shared sensor reading is the
same record afterwards. -/
theorem null_recv_closes_once (fmt2f : ℚ → List Nat) (env : JoyServerAp.Frame) (d : Device) :
    (closes (JoyServer.tcp_server_recv_fn fmt2f d.readings none).1 = 1 ∧
        writes (JoyServer.tcp_server_recv_fn fmt2f d.readings none).1 = [] ∧
        (JoyServer.on_recv fmt2f d none).1.readings = d.readings) ∧
      (closes (JoyServerAp.tcp_server_recv_fn env none).1 = 1 ∧
        writes (JoyServerAp.tcp_server_recv_fn env none).1 = [] ∧
        (JoyServerAp.on_recv env d none).1.readings = d.readings) ∧
      (closes (BitdogClient.http_client_recv none).1 = 1 ∧
        writes (BitdogClient.http_client_recv none).1 = [] ∧
        (BitdogClient.on_recv d none).1.readings = d.readings) := by
  refine ⟨⟨rfl, rfl, rfl⟩, ⟨?_, ?_, rfl⟩, ⟨rfl, rfl, rfl⟩⟩
  · unfold JoyServerAp.tcp_server_recv_fn JoyServerAp.tcp_server_recv_core
      JoyServerAp.close_inline
    dsimp only
    split_ifs <;> rfl
  · unfold JoyServerAp.tcp_server_recv_fn JoyServerAp.tcp_server_recv_core
      JoyServerAp.close_inline
    dsimp only
    split_ifs <;> rfl

/-! ## The POST of the client -/

namespace BitdogClient

theorem request_head_facts :
    request_head = bytes ("POST /update_readings HTTP/1.1\r\nHost: 192.168.181.161\r\n"
        ++ "Content-Type: application/json\r\nContent-Length: ") ∧
      request_head.length = 103 ∧ ∀ b ∈ request_head, b ≠ 0 := by
  decide

theorem request_tail_facts : request_tail.length = 23 ∧ ∀ b ∈ request_tail, b ≠ 0 := by
  decide

theorem post_body_fits (fmt2f : ℚ → List Nat) (data : SENSOR_DATA_T)
    (ht : (fmt2f data.temperature).length ≤ 150 ∧ ∀ b ∈ fmt2f data.temperature, b ≠ 0)
    (hx : (fmt2f data.analog_x).length ≤ 150 ∧ ∀ b ∈ fmt2f data.analog_x, b ≠ 0)
    (hy : (fmt2f data.analog_y).length ≤ 150 ∧ ∀ b ∈ fmt2f data.analog_y, b ≠ 0) :
    (post_body fmt2f data).length ≤ 512 - 1 ∧ ∀ b ∈ post_body fmt2f data, b ≠ 0 := by
  have ha : (fmt_d ((data.button_a % 256 : Nat) : Int)).length ≤ 3 := by
    rw [fmt_d_nat]
    exact decDigits_length _ _ 3 (by norm_num) (by omega)
  have hb : (fmt_d ((data.button_b % 256 : Nat) : Int)).length ≤ 3 := by
    rw [fmt_d_nat]
    exact decDigits_length _ _ 3 (by norm_num) (by omega)
  have l0 : (bytes "\x7b\"temp\":").length = 8 ∧ ∀ b ∈ bytes "\x7b\"temp\":", b ≠ 0 := by decide
  have l1 : (bytes ",\"joy_x\":").length = 9 ∧ ∀ b ∈ bytes ",\"joy_x\":", b ≠ 0 := by decide
  have l2 : (bytes ",\"joy_y\":").length = 9 ∧ ∀ b ∈ bytes ",\"joy_y\":", b ≠ 0 := by decide
  have l3 : (bytes ",\"btn_a\":").length = 9 ∧ ∀ b ∈ bytes ",\"btn_a\":", b ≠ 0 := by decide
  have l4 : (bytes ",\"btn_b\":").length = 9 ∧ ∀ b ∈ bytes ",\"btn_b\":", b ≠ 0 := by decide
  have l5 : (bytes "\x7d").length = 1 ∧ ∀ b ∈ bytes "\x7d", b ≠ 0 := by decide
  constructor
  · unfold post_body
    simp only [List.length_append]
    omega
  · intro b hb
    unfold post_body at hb
    simp only [List.mem_append] at hb
    rcases hb with ((((((((((h | h) | h) | h) | h) | h) | h) | h) | h) | h) | h)
    · exact l0.2 b h
    · exact ht.2 b h
    · exact l1.2 b h
    · exact hx.2 b h
    · exact l2.2 b h
    · exact hy.2 b h
    · exact l3.2 b h
    · exact fmt_d_nat_no_nul _ b h
    · exact l4.2 b h
    · exact fmt_d_nat_no_nul _ b h
    · exact l5.2 b h

/-- C20. Client POST rendering: for every reading and every rendering `fmt2f`
of `%.2f`, `http_client_send_post` makes one write (then `tcp_output`) of the
request line `POST /update_readings HTTP/1.1`, the Host, Content-Type:
application/json, Content-Length and Connection: close headers, a blank line and
the body; the digits of Content-Length denote exactly the byte length of the
body that follows, and the 1024-byte request buffer cuts nothing. The body is
the full JSON text, with the fields temp, joy_x, joy_y, btn_a, btn_b in that
order, whenever the three `%.2f` renderings are NUL-free and at most 150 bytes
each (a `float` needs at most 43), so the 512-byte body buffer cuts nothing
either. -/
theorem post_request_content_length (fmt2f : ℚ → List Nat) (data : SENSOR_DATA_T) :
    ∃ digits body : List Nat,
      body = cstr ((post_body fmt2f data).take (512 - 1)) ∧
      http_client_send_post fmt2f data =
        [Call.tcp_write
            (bytes ("POST /update_readings HTTP/1.1\r\nHost: 192.168.181.161\r\n"
                ++ "Content-Type: application/json\r\nContent-Length: ")
              ++ digits ++ bytes "\r\nConnection: close\r\n\r\n" ++ body),
          Call.tcp_output] ∧
      decimalValue digits = some body.length ∧
      (((fmt2f data.temperature).length ≤ 150 ∧ ∀ b ∈ fmt2f data.temperature, b ≠ 0) →
       ((fmt2f data.analog_x).length ≤ 150 ∧ ∀ b ∈ fmt2f data.analog_x, b ≠ 0) →
       ((fmt2f data.analog_y).length ≤ 150 ∧ ∀ b ∈ fmt2f data.analog_y, b ≠ 0) →
       body = bytes "\x7b\"temp\":" ++ fmt2f data.temperature
          ++ bytes ",\"joy_x\":" ++ fmt2f data.analog_x
          ++ bytes ",\"joy_y\":" ++ fmt2f data.analog_y
          ++ bytes ",\"btn_a\":" ++ fmt_d ((data.button_a % 256 : Nat) : Int)
          ++ bytes ",\"btn_b\":" ++ fmt_d ((data.button_b % 256 : Nat) : Int)
          ++ bytes "\x7d") := by
  refine ⟨fmt_d ((cstr ((post_body fmt2f data).take (512 - 1))).length : Int),
    cstr ((post_body fmt2f data).take (512 - 1)), rfl, ?_, decimalValue_fmt_d _, ?_⟩
  · have hblen : (cstr ((post_body fmt2f data).take (512 - 1))).length ≤ 511 := by
      have := cstr_length_le ((post_body fmt2f data).take (512 - 1))
      simp only [List.length_take] at this
      omega
    set body := cstr ((post_body fmt2f data).take (512 - 1)) with hbody
    have hb0 : ∀ b ∈ body, b ≠ 0 := cstr_no_nul _
    have hstr : snprintf_str 512 (post_body fmt2f data) = body := rfl
    have hsl : strlen body = body.length := by
      unfold strlen; rw [cstr_eq_self _ hb0]
    have hdig : (fmt_d (body.length : Int)).length ≤ 3 := by
      rw [fmt_d_nat]
      exact decDigits_length _ _ 3 (by norm_num) (by omega)
    set req := request_head ++ fmt_d (body.length : Int) ++ request_tail ++ body with hreq
    have hr0 : ∀ b ∈ req, b ≠ 0 := by
      intro b hb
      simp only [hreq, List.mem_append] at hb
      rcases hb with ((h | h) | h) | h
      · exact request_head_facts.2.2 b h
      · exact fmt_d_nat_no_nul _ b h
      · exact request_tail_facts.2 b h
      · exact hb0 b h
    have hrlen : req.length ≤ 640 := by
      simp only [hreq, List.length_append, request_head_facts.2.1, request_tail_facts.1]
      omega
    have hrequest : snprintf_str 1024
        (request_head ++ fmt_d (body.length : Int) ++ request_tail ++ cstr body) = req := by
      rw [cstr_eq_self _ hb0]
      exact snprintf_str_fits 1024 req (by omega) hr0
    have hlen : strlen req % 65536 = req.length := by
      unfold strlen
      rw [cstr_eq_self _ hr0]
      exact Nat.mod_eq_of_lt (by omega)
    unfold http_client_send_post
    simp only [hstr, hsl, hrequest, hlen, List.take_length]
    rw [hreq, request_head_facts.1]
    rfl
  · intro ht hx hy
    obtain ⟨hlen, h0⟩ := post_body_fits fmt2f data ht hx hy
    rw [List.take_of_length_le hlen, cstr_eq_self _ h0]
    rfl

/-- Witness of C20 at `still_reading`: the premises on the `%.2f` renderings
hold, the body written is the full JSON text and the digits denote its length. -/
theorem post_request_content_length_witness :
    ∃ digits : List Nat,
      http_client_send_post JoyServer.still_fmt JoyServer.still_reading =
        [Call.tcp_write
            (bytes ("POST /update_readings HTTP/1.1\r\nHost: 192.168.181.161\r\n"
                ++ "Content-Type: application/json\r\nContent-Length: ")
              ++ digits ++ bytes "\r\nConnection: close\r\n\r\n"
              ++ bytes ("\x7b\"temp\":0.00,\"joy_x\":0.00,\"joy_y\":0.00,"
                ++ "\"btn_a\":1,\"btn_b\":0\x7d")),
          Call.tcp_output] ∧
      decimalValue digits = some 59 := by
  obtain ⟨digits, body, _, hw, hd, hfull⟩ :=
    post_request_content_length JoyServer.still_fmt JoyServer.still_reading
  have hb := hfull (by decide) (by decide) (by decide)
  have he : body = bytes ("\x7b\"temp\":0.00,\"joy_x\":0.00,\"joy_y\":0.00,"
      ++ "\"btn_a\":1,\"btn_b\":0\x7d") := by
    rw [hb]; decide
  subst he
  exact ⟨digits, hw, hd⟩

end BitdogClient

/-! ## What joy_server answers -/

namespace JoyServer

theorem recv_write_shape (fmt2f : ℚ → List Nat) (readings : SENSOR_DATA_T) (payload : List Nat) :
    tcp_server_recv_fn fmt2f readings (some payload) =
      ([Call.tcp_write (header_head
          ++ fmt_d ((cstr ((status_page fmt2f readings).take (4092 - 1))).length : Int)
          ++ header_tail ++ cstr ((status_page fmt2f readings).take (4092 - 1))),
        Call.tcp_output, Call.pbuf_free, Call.tcp_sent (some Callback.joy_tcp_sent_callback)],
       ERR_OK) := by
  have hblen : (cstr ((status_page fmt2f readings).take (4092 - 1))).length ≤ 4091 := by
    have := cstr_length_le ((status_page fmt2f readings).take (4092 - 1))
    simp only [List.length_take] at this
    omega
  generalize hbody : cstr ((status_page fmt2f readings).take (4092 - 1)) = body at hblen ⊢
  have hb0 : ∀ b ∈ body, b ≠ 0 := by
    rw [← hbody]; exact cstr_no_nul _
  have hstr : snprintf_str 4092 (status_page fmt2f readings) = body := hbody
  have hsl : strlen body = body.length := by
    unfold strlen; rw [cstr_eq_self _ hb0]
  have hdig : (fmt_d (body.length : Int)).length ≤ 4 := by
    rw [fmt_d_nat]
    exact decDigits_length _ _ 4 (by norm_num) (by omega)
  have hh0 : ∀ b ∈ header_head ++ fmt_d (body.length : Int) ++ header_tail, b ≠ 0 := by
    intro b hb
    simp only [List.mem_append] at hb
    rcases hb with (h | h) | h
    · exact header_head_facts.2 b h
    · exact fmt_d_nat_no_nul _ b h
    · exact header_tail_facts.2 b h
  have hhlen : (header_head ++ fmt_d (body.length : Int) ++ header_tail).length ≤ 85 := by
    simp only [List.length_append, header_head_facts.1, header_tail_facts.1]
    omega
  have hheaders : snprintf_str 256 (header_head ++ fmt_d (body.length : Int) ++ header_tail)
      = header_head ++ fmt_d (body.length : Int) ++ header_tail :=
    snprintf_str_fits _ _ (by omega) hh0
  have hall0 : ∀ b ∈ header_head ++ fmt_d (body.length : Int) ++ header_tail ++ body, b ≠ 0 := by
    intro b hb
    rcases List.mem_append.1 hb with h | h
    · exact hh0 b h
    · exact hb0 b h
  have hhtml : snprintf_str (256 + 4092)
      (cstr (header_head ++ fmt_d (body.length : Int) ++ header_tail) ++ cstr body)
      = header_head ++ fmt_d (body.length : Int) ++ header_tail ++ body := by
    rw [cstr_eq_self _ hh0, cstr_eq_self _ hb0]
    exact snprintf_str_fits _ _ (by simp only [List.length_append] at hhlen ⊢; omega) hall0
  have hlen : strlen (header_head ++ fmt_d (body.length : Int) ++ header_tail ++ body) % 65536
      = (header_head ++ fmt_d (body.length : Int) ++ header_tail ++ body).length := by
    unfold strlen
    rw [cstr_eq_self _ hall0]
    apply Nat.mod_eq_of_lt
    simp only [List.length_append] at hhlen ⊢; omega
  unfold tcp_server_recv_fn
  simp only [hstr, hsl, hheaders, hhtml, hlen, List.take_length]

/-- C23. joy_server ignores the request content: for every two received
payloads (of any bytes, method or path) and the same sensor reading,
`tcp_server_recv_fn` makes the same calls with byte-identical data and returns
the same value; the one write is the 200 status page, its first bytes are
`HTTP/1.1 200 OK`. -/
theorem status_response_ignores_request (fmt2f : ℚ → List Nat) (readings : SENSOR_DATA_T)
    (p1 p2 : List Nat) :
    tcp_server_recv_fn fmt2f readings (some p1) = tcp_server_recv_fn fmt2f readings (some p2) ∧
      ∃ rest : List Nat,
        writes (tcp_server_recv_fn fmt2f readings (some p1)).1
          = [bytes "HTTP/1.1 200 OK" ++ rest] ∧
        writes (tcp_server_recv_fn fmt2f readings (some p2)).1
          = [bytes "HTTP/1.1 200 OK" ++ rest] := by
  have hh : header_head = bytes "HTTP/1.1 200 OK"
      ++ bytes "\r\nContent-Type: text/html\r\nContent-Length: " := by decide
  refine ⟨rfl, bytes "\r\nContent-Type: text/html\r\nContent-Length: "
    ++ fmt_d ((cstr ((status_page fmt2f readings).take (4092 - 1))).length : Int)
    ++ header_tail ++ cstr ((status_page fmt2f readings).take (4092 - 1)), ?_, ?_⟩
  · rw [recv_write_shape, hh]
    simp [writes]
  · rw [recv_write_shape, hh]
    simp [writes]

end JoyServer

/-! ## The router of joy_server_ap -/

namespace JoyServerAp

theorem strncmp_literal_iff (lit a : List Nat) (h0 : ∀ b ∈ lit, b ≠ 0) :
    strncmp a lit lit.length = 0 ↔ a.take lit.length = lit := by
  induction lit generalizing a with
  | nil => simp [strncmp]
  | cons c cs ih =>
    have hc : c ≠ 0 := h0 c (List.mem_cons_self _ _)
    have hcs : ∀ b ∈ cs, b ≠ 0 := fun b hb => h0 b (List.mem_cons_of_mem _ hb)
    cases a with
    | nil =>
      simp only [List.length_cons, strncmp, List.headD_nil, List.headD_cons, List.take_nil]
      rw [if_pos (Ne.symm hc)]
      constructor
      · intro h; exfalso; omega
      · intro h; exact absurd h (by simp)
    | cons x xs =>
      simp only [List.length_cons, strncmp, List.headD_cons, List.tail_cons, List.take_succ_cons]
      by_cases hx : x = c
      · subst hx
        rw [if_neg (by simp), if_neg hc, ih xs hcs]
        simp
      · rw [if_pos hx]
        constructor
        · intro h; exfalso; apply hx; omega
        · intro h; exact absurd (List.cons.inj h).1 hx

theorem strncpy_page (dst page : List Nat) (n : Nat) (h0 : ∀ b ∈ page, b ≠ 0)
    (hlen : page.length < n) :
    strncpy dst page n = page ++ List.replicate (n - page.length) 0 ++ dst.drop n := by
  unfold strncpy
  simp only [cstr_eq_self _ h0, List.take_of_length_le (Nat.le_of_lt hlen)]

/-- C24. joy_server_ap routing: for every request string, `test_server_content`
selects the "Servidor funcionando!" page if and only if the request begins with
the eight bytes `/sensors` (so `/sensorsX` matches and `/` does not) and the
"404 Não encontrado" page otherwise; it returns the byte length of the selected
page, 56 or 54; and the result buffer afterwards holds that page, padded with
NULs up to `result_size`, exactly when that length is smaller than
`result_size`, being left as it was otherwise. -/
theorem routing_by_sensors_route (request : List Nat) (params : Option (List Nat))
    (result : List Nat) (result_size : Nat) :
    (strncmp request (bytes "/sensors") (9 - 1) = 0 ↔ request.take 8 = bytes "/sensors") ∧
      test_server_content request params result result_size =
        (if request.take 8 = bytes "/sensors" then
          ((html_content.length : Int),
            if html_content.length < result_size then
              html_content ++ List.replicate (result_size - html_content.length) 0
                ++ result.drop result_size
            else result)
         else
          ((not_found_content.length : Int),
            if not_found_content.length < result_size then
              not_found_content ++ List.replicate (result_size - not_found_content.length) 0
                ++ result.drop result_size
            else result)) ∧
      html_content = bytes "<html><body><h1>Servidor funcionando!</h1></body></html>" ∧
      not_found_content = bytes "<html><body><h1>404 Não encontrado</h1></body></html>" ∧
      html_content.length = 56 ∧ not_found_content.length = 54 ∧
      (test_server_content (bytes "/sensorsX") params result result_size).1 = 56 ∧
      (test_server_content (bytes "/") params result result_size).1 = 54 := by
  have hlit : ∀ b ∈ bytes "/sensors", b ≠ 0 := by decide
  have hl8 : (bytes "/sensors").length = 8 := by decide
  have hiff : ∀ a : List Nat,
      strncmp a (bytes "/sensors") (9 - 1) = 0 ↔ a.take 8 = bytes "/sensors" := by
    intro a
    have := strncmp_literal_iff (bytes "/sensors") a hlit
    rw [hl8] at this
    exact this
  have h1 : ∀ b ∈ html_content, b ≠ 0 := by decide
  have h2 : ∀ b ∈ not_found_content, b ≠ 0 := by decide
  have s1 : strlen html_content = html_content.length := by
    unfold strlen; rw [cstr_eq_self _ h1]
  have s2 : strlen not_found_content = not_found_content.length := by
    unfold strlen; rw [cstr_eq_self _ h2]
  have key : ∀ a : List Nat, test_server_content a params result result_size =
        (if a.take 8 = bytes "/sensors" then
          ((html_content.length : Int),
            if html_content.length < result_size then
              html_content ++ List.replicate (result_size - html_content.length) 0
                ++ result.drop result_size
            else result)
         else
          ((not_found_content.length : Int),
            if not_found_content.length < result_size then
              not_found_content ++ List.replicate (result_size - not_found_content.length) 0
                ++ result.drop result_size
            else result)) := by
    intro a
    unfold test_server_content
    simp only [s1, s2]
    by_cases hr : a.take 8 = bytes "/sensors"
    · rw [if_pos ((hiff a).2 hr), if_pos hr]
      by_cases hs : html_content.length < result_size
      · rw [if_pos hs, if_pos hs, strncpy_page _ _ _ h1 hs]
      · rw [if_neg hs, if_neg hs]
    · rw [if_neg (fun h => hr ((hiff a).1 h)), if_neg hr]
      by_cases hs : not_found_content.length < result_size
      · rw [if_pos hs, if_pos hs, strncpy_page _ _ _ h2 hs]
      · rw [if_neg hs, if_neg hs]
  refine ⟨hiff request, key request, rfl, rfl, by decide, by decide, ?_, ?_⟩
  · rw [key, if_pos (by decide)]
    show (html_content.length : Int) = 56
    decide
  · rw [key, if_neg (by decide)]
    show (not_found_content.length : Int) = 54
    decide

end JoyServerAp

/-! ## A GET is always answered with 200 -/

namespace JoyServerAp

theorem get_first_call (env : Frame) (payload : List Nat)
    (hget : payload.take 4 = bytes "GET ") :
    ∃ len : Nat, (len = 56 ∨ len = 54) ∧
      (test_server_content (split_request (work_buffer env.headers0 payload)).1
        (split_request (work_buffer env.headers0 payload)).2 env.result0 1024).1 = (len : Int) ∧
      (tcp_server_recv_fn env (some payload)).1.head?
        = some (Call.tcp_write (ok_head ++ fmt_d (len : Int) ++ ok_tail)) := by
  have hpos : payload.length > 0 := by
    have h4 : (payload.take 4).length = 4 := by rw [hget]; decide
    rcases payload with _ | ⟨a, l⟩
    · simp at h4
    · simp
  have hm := strncmp_get_of_take env.headers0 payload hget
  have t1 : (render_headers 56 env.local_ip) = ok_head ++ fmt_d 56 ++ ok_tail := by
    simp [render_headers]
  have t2 : (render_headers 54 env.local_ip) = ok_head ++ fmt_d 54 ++ ok_tail := by
    simp [render_headers]
  have n1 : (ok_head ++ fmt_d 56 ++ ok_tail).length = 83 := by decide
  have n2 : (ok_head ++ fmt_d 54 ++ ok_tail).length = 83 := by decide
  have e1 : ((83 : Nat) : Int).toNat % 65536 = 83 := by decide
  have e2 : ¬ (((83 : Nat) : Int) > 512 - 1) := by decide
  rcases content_cases (split_request (work_buffer env.headers0 payload)).1
      (split_request (work_buffer env.headers0 payload)).2 env.result0 with ⟨_, hc⟩ | ⟨_, hc⟩
  · have hs := fun buf => snprintf_fst_take buf (ok_head ++ fmt_d 56 ++ ok_tail) 512
      (by rw [n1]; norm_num)
    rw [n1] at hs
    refine ⟨56, Or.inl rfl, by rw [hc]; rfl, ?_⟩
    unfold tcp_server_recv_fn tcp_server_recv_core close_inline
    simp only [hpos, hm, if_true, hc, t1, snprintf_snd, n1, e1, e2, if_false, hs]
    split_ifs <;> rfl
  · have hs := fun buf => snprintf_fst_take buf (ok_head ++ fmt_d 54 ++ ok_tail) 512
      (by rw [n2]; norm_num)
    rw [n2] at hs
    refine ⟨54, Or.inr rfl, by rw [hc]; rfl, ?_⟩
    unfold tcp_server_recv_fn tcp_server_recv_core close_inline
    simp only [hpos, hm, if_true, hc, t2, snprintf_snd, n2, e1, e2, if_false, hs]
    split_ifs <;> rfl

/-- C25. joy_server_ap always answers a GET with 200: for every received
payload that begins with "GET ", the length `test_server_content` returns is
positive (56 or 54) and the rendered header has 83 bytes, below 512, so neither
the 302 redirect branch nor the header-overflow close branch is taken: whatever
lwIP answers to the writes, the first call of `tcp_server_recv_fn` is the write
of a header that starts with `HTTP/1.1 200 OK`. -/
theorem get_always_answered_200 (env : Frame) (payload : List Nat)
    (hget : payload.take 4 = bytes "GET ") :
    ∃ (len : Nat) (rest : List Nat),
      (test_server_content (split_request (work_buffer env.headers0 payload)).1
        (split_request (work_buffer env.headers0 payload)).2 env.result0 1024).1 = (len : Int) ∧
      0 < len ∧
      (render_headers (len : Int) env.local_ip).length = 83 ∧
      (render_headers (len : Int) env.local_ip).length < 512 ∧
      render_headers (len : Int) env.local_ip = bytes "HTTP/1.1 200 OK" ++ rest ∧
      (tcp_server_recv_fn env (some payload)).1.head?
        = some (Call.tcp_write (bytes "HTTP/1.1 200 OK" ++ rest)) := by
  have hh : ok_head = bytes "HTTP/1.1 200 OK"
      ++ bytes "\r\nContent-Type: text/html\r\nConnection: close\r\nContent-Length: " := by
    decide
  obtain ⟨len, hlen, hgen, hfirst⟩ := get_first_call env payload hget
  have hr : render_headers (len : Int) env.local_ip = ok_head ++ fmt_d (len : Int) ++ ok_tail := by
    unfold render_headers
    rw [if_pos (by rcases hlen with h | h <;> subst h <;> decide)]
  have h83 : (ok_head ++ fmt_d (len : Int) ++ ok_tail).length = 83 := by
    rcases hlen with h | h <;> subst h <;> decide
  refine ⟨len, bytes "\r\nContent-Type: text/html\r\nConnection: close\r\nContent-Length: "
    ++ fmt_d (len : Int) ++ ok_tail, hgen, by omega, by rw [hr, h83], by rw [hr, h83]; norm_num,
    ?_, ?_⟩
  · rw [hr, hh]; simp
  · rw [hfirst, hh]; simp

/-- Witness of C25 at a GET for a path that is not routed. -/
theorem get_always_answered_200_witness :
    (bytes "GET /favicon.ico HTTP/1.1\r\n\r\n").take 4 = bytes "GET " ∧
      ∃ (len : Nat) (rest : List Nat),
        (test_server_content
          (split_request (work_buffer quiet_frame.headers0
            (bytes "GET /favicon.ico HTTP/1.1\r\n\r\n"))).1
          (split_request (work_buffer quiet_frame.headers0
            (bytes "GET /favicon.ico HTTP/1.1\r\n\r\n"))).2 quiet_frame.result0 1024).1
            = (len : Int) ∧
        0 < len ∧
        (render_headers (len : Int) quiet_frame.local_ip).length = 83 ∧
        (render_headers (len : Int) quiet_frame.local_ip).length < 512 ∧
        render_headers (len : Int) quiet_frame.local_ip = bytes "HTTP/1.1 200 OK" ++ rest ∧
        (tcp_server_recv_fn quiet_frame (some (bytes "GET /favicon.ico HTTP/1.1\r\n\r\n"))).1.head?
          = some (Call.tcp_write (bytes "HTTP/1.1 200 OK" ++ rest)) :=
  ⟨by decide, get_always_answered_200 quiet_frame (bytes "GET /favicon.ico HTTP/1.1\r\n\r\n")
    (by decide)⟩

end JoyServerAp

/-! ## The compass in raw readings -/

theorem axis_east_iff (r : Nat) (hr : r < 65536) :
    (read_analog_x r > 1 / 2 ↔ r ≥ 3272) ∧ (read_analog_x r < -(1 / 2) ↔ r ≤ 824) := by
  rw [read_analog_x_num r hr]
  have h1647 : (0 : ℚ) < 1647 := by norm_num
  have hn : ∀ n : Int,
      n = (if r > 2448 then (r : Int) - 2448 else if r < 1648 then (r : Int) - 1648 else 0) →
      ((824 ≤ n ↔ r ≥ 3272) ∧ (n ≤ -824 ↔ r ≤ 824)) := by
    intro n hn
    rw [hn]
    constructor <;> split_ifs <;> omega
  generalize (if r > 2448 then (r : Int) - 2448 else if r < 1648 then (r : Int) - 1648 else 0)
    = n at hn ⊢
  obtain ⟨he, hw⟩ := hn n rfl
  constructor
  · rw [gt_iff_lt, lt_div_iff₀ h1647, ← he]
    constructor
    · intro h
      by_contra hc
      have h823 : n ≤ 823 := by omega
      have : (n : ℚ) ≤ 823 := by exact_mod_cast h823
      linarith
    · intro h
      have : (824 : ℚ) ≤ (n : ℚ) := by exact_mod_cast h
      linarith
  · rw [div_lt_iff₀ h1647, ← hw]
    constructor
    · intro h
      by_contra hc
      have h823 : -823 ≤ n := by omega
      have : (-823 : ℚ) ≤ (n : ℚ) := by exact_mod_cast h823
      linarith
    · intro h
      have : (n : ℚ) ≤ -824 := by exact_mod_cast h
      linarith

theorem direction_by_raw (rx ry : Nat) (hx : rx < 65536) (hy : ry < 65536) :
    JoyServer.get_wind_rose_direction (read_analog_x rx) (read_analog_y ry) =
      if rx ≥ 3272 then
        if ry ≥ 3272 then "NORDESTE" else if ry ≤ 824 then "SUDESTE" else "LESTE"
      else if rx ≤ 824 then
        if ry ≥ 3272 then "NOROESTE" else if ry ≤ 824 then "SUDOESTE" else "OESTE"
      else
        if ry ≥ 3272 then "NORTE" else if ry ≤ 824 then "SUL" else "CENTRO" := by
  have hxe := (axis_east_iff rx hx).1
  have hxw := (axis_east_iff rx hx).2
  have hyn := (axis_east_iff ry hy).1
  have hys := (axis_east_iff ry hy).2
  rw [read_analog_y_eq_x]
  unfold JoyServer.get_wind_rose_direction
  simp only [hxe, hxw, hyn, hys]

/-- C26. Compass in terms of raw readings: for all raw 12-bit readings `rx`, `ry`
normalised by `read_analog_x` and `read_analog_y`, the label
`get_wind_rose_direction` returns has an east part (NORDESTE, SUDESTE, LESTE) iff
`rx ≥ 3272`, a west part (NOROESTE, SUDOESTE, OESTE) iff `rx ≤ 824`, a north
part (NORDESTE, NOROESTE, NORTE) iff `ry ≥ 3272` and a south part (SUDESTE,
SUDOESTE, SUL) iff `ry ≤ 824`; it is CENTRO iff both readings lie in 825..3271,
in particular whenever both lie in the dead zone 1648..2448. -/
theorem compass_by_raw_readings (rx ry : Nat) (hx : rx ≤ 4095) (hy : ry ≤ 4095) :
    (JoyServer.get_wind_rose_direction (read_analog_x rx) (read_analog_y ry)
        ∈ ["NORDESTE", "SUDESTE", "LESTE"] ↔ rx ≥ 3272) ∧
      (JoyServer.get_wind_rose_direction (read_analog_x rx) (read_analog_y ry)
        ∈ ["NOROESTE", "SUDOESTE", "OESTE"] ↔ rx ≤ 824) ∧
      (JoyServer.get_wind_rose_direction (read_analog_x rx) (read_analog_y ry)
        ∈ ["NORDESTE", "NOROESTE", "NORTE"] ↔ ry ≥ 3272) ∧
      (JoyServer.get_wind_rose_direction (read_analog_x rx) (read_analog_y ry)
        ∈ ["SUDESTE", "SUDOESTE", "SUL"] ↔ ry ≤ 824) ∧
      (JoyServer.get_wind_rose_direction (read_analog_x rx) (read_analog_y ry) = "CENTRO"
        ↔ (825 ≤ rx ∧ rx ≤ 3271) ∧ (825 ≤ ry ∧ ry ≤ 3271)) ∧
      ((1648 ≤ rx ∧ rx ≤ 2448) ∧ (1648 ≤ ry ∧ ry ≤ 2448) →
        JoyServer.get_wind_rose_direction (read_analog_x rx) (read_analog_y ry) = "CENTRO") := by
  rw [direction_by_raw rx ry (by omega) (by omega)]
  refine ⟨?_, ?_, ?_, ?_, ?_, ?_⟩
  all_goals
    split_ifs
    all_goals first
      | (constructor
         · intro h
           first
             | omega
             | exact absurd h (by decide)
         · intro h
           first
             | decide
             | (exfalso; omega))
      | (intro h
         first
           | rfl
           | (exfalso; omega))

/-- Witness of C26 at the readings 3500 and 2048: east, no north or south part. -/
theorem compass_by_raw_readings_witness :
    JoyServer.get_wind_rose_direction (read_analog_x 3500) (read_analog_y 2048)
        ∈ ["NORDESTE", "SUDESTE", "LESTE"] ↔ 3500 ≥ 3272 :=
  (compass_by_raw_readings 3500 2048 (by decide) (by decide)).1

/-! ## The bytes left in the work buffer -/

namespace JoyServerAp

/-- C22, the code at the failing input: the 8-byte payload `GET /sen` received
twice, by two runs that differ only in what the 512-byte `headers` buffer held
before the copy, gets two different responses: the not-found page when the old
bytes at offsets 8..11 are 0xFF, the "Servidor funcionando!" page when they are
`sors`. Only index 511 is set to NUL, not the end of the copied request. -/
theorem ap_response_depends_on_old_buffer :
    quiet_frame.headers0.length = 512 ∧ residue_frame.headers0.length = 512 ∧
      residue_frame = { quiet_frame with headers0 := residue_frame.headers0 } ∧
      writes (tcp_server_recv_fn quiet_frame (some get_sen)).1
        = [ok_head ++ bytes "54" ++ ok_tail, not_found_content] ∧
      writes (tcp_server_recv_fn residue_frame (some get_sen)).1
        = [ok_head ++ bytes "56" ++ ok_tail, html_content] ∧
      writes (tcp_server_recv_fn quiet_frame (some get_sen)).1
        ≠ writes (tcp_server_recv_fn residue_frame (some get_sen)).1 := by
  refine ⟨by decide, by decide, rfl, by decide, by decide, by decide⟩

end JoyServerAp

namespace JoyServerAp

theorem take_set_of_le (l : List Nat) (a m n : Nat) (h : m ≤ n) :
    (l.set n a).take m = l.take m := by
  apply List.ext_getElem?
  intro i
  rw [List.getElem?_take, List.getElem?_take]
  split
  · rw [List.getElem?_set, if_neg (by omega)]
  · rfl

theorem set_take_iff (l lit : List Nat) (i z : Nat) (hz : z ∉ lit)
    (hc : ∀ c, l[i]? = some c → c ∉ lit) :
    (l.set i z).take lit.length = lit ↔ l.take lit.length = lit := by
  by_cases hi : i < lit.length
  · constructor
    · intro h
      exfalso
      have h1 : ((l.set i z).take lit.length)[i]? = lit[i]? := by rw [h]
      rw [List.getElem?_take_of_lt hi, List.getElem?_set, if_pos rfl,
        List.getElem?_eq_getElem hi] at h1
      split at h1
      · have : z = lit[i] := Option.some.inj h1
        exact hz (this ▸ List.getElem_mem hi)
      · exact absurd h1 (by simp)
    · intro h
      exfalso
      have h1 : (l.take lit.length)[i]? = lit[i]? := by rw [h]
      rw [List.getElem?_take_of_lt hi, List.getElem?_eq_getElem hi] at h1
      exact hc _ h1 (List.getElem_mem hi)
  · rw [take_set_of_le _ _ _ _ (by omega)]

theorem strchr_spec (l : List Nat) (c i : Nat) (h : strchr l c = some i) : l[i]? = some c := by
  induction l generalizing i with
  | nil => simp [strchr] at h
  | cons b rest ih =>
    unfold strchr at h
    split_ifs at h with h1 h2
    · simp at h; subst h; simp [h1]
    · rcases hs : strchr rest c with _ | j
      · simp [hs] at h
      · simp [hs] at h
        subst h
        simpa using ih j hs

theorem split_request_route (headers : List Nat) :
    (split_request headers).1.take 8 = bytes "/sensors"
      ↔ (headers.drop 4).take 8 = bytes "/sensors" := by
  have hl : (bytes "/sensors").length = 8 := by decide
  have h0 : (0 : Nat) ∉ bytes "/sensors" := by decide
  have h63 : (63 : Nat) ∉ bytes "/sensors" := by decide
  have h32 : (32 : Nat) ∉ bytes "/sensors" := by decide
  simp only [split_request]
  split
  · next i hq =>
    have hqi := strchr_spec _ _ _ hq
    have step1 : ((headers.drop 4).set i 0).take 8 = bytes "/sensors"
        ↔ (headers.drop 4).take 8 = bytes "/sensors" := by
      have := set_take_iff (headers.drop 4) (bytes "/sensors") i 0 h0
        (fun c hc => by rw [hqi] at hc; rw [← Option.some.inj hc]; exact h63)
      rwa [hl] at this
    split
    · next j hs =>
      have hsj := strchr_spec _ _ _ hs
      have step2 : (((headers.drop 4).set i 0).set j 0).take 8 = bytes "/sensors"
          ↔ ((headers.drop 4).set i 0).take 8 = bytes "/sensors" := by
        have := set_take_iff ((headers.drop 4).set i 0) (bytes "/sensors") j 0 h0
          (fun c hc => by
            rw [List.getElem?_set] at hc
            split at hc
            · split at hc
              · rw [← Option.some.inj hc]; exact h0
              · exact absurd hc (by simp)
            · rw [hsj] at hc; rw [← Option.some.inj hc]; exact h32)
        rwa [hl] at this
      exact step2.trans step1
    · exact step1
  · rfl

theorem work_buffer_take (headers0 payload : List Nat) (k : Nat) (hk : k ≤ 511)
    (hlen : k ≤ payload.length) :
    ∃ tl, work_buffer headers0 payload = payload.take k ++ tl := by
  unfold work_buffer
  simp only [show (512 : Nat) - 1 = 511 from rfl]
  have hkl : (payload.take k).length = k := by simp; omega
  have e : ∀ n, k ≤ n → payload.take n = payload.take k ++ (payload.drop k).take (n - k) := by
    intro n hn
    conv_lhs => rw [← List.take_append_drop k payload]
    rw [List.take_append_eq_append_take, hkl, List.take_of_length_le (by omega)]
  split_ifs with h
  · rw [e 511 hk, List.append_assoc, List.set_append_right _ _ (by omega)]
    exact ⟨_, rfl⟩
  · rw [e payload.length hlen, List.append_assoc, List.set_append_right _ _ (by omega)]
    exact ⟨_, rfl⟩

theorem route_of_long_payload (headers0 payload : List Nat) (hlen : 12 ≤ payload.length) :
    strncmp (split_request (work_buffer headers0 payload)).1 (bytes "/sensors") 8 = 0
      ↔ (payload.drop 4).take 8 = bytes "/sensors" := by
  have hl : (bytes "/sensors").length = 8 := by decide
  have h1 := strncmp_literal_iff (bytes "/sensors")
    (split_request (work_buffer headers0 payload)).1 (by decide)
  rw [hl] at h1
  rw [h1, split_request_route]
  obtain ⟨tl, htl⟩ := work_buffer_take headers0 payload 12 (by omega) hlen
  have hkl : (payload.take 12).length = 12 := by simp; omega
  have e : ((payload.take 12 ++ tl).drop 4).take 8 = (payload.drop 4).take 8 := by
    rw [List.drop_append_of_le_length (by omega), List.take_append_of_le_length (by simp; omega),
      List.drop_take, List.take_take]
    rfl
  rw [htl, e]

theorem long_payload_response_determined (env1 env2 : Frame) (payload : List Nat)
    (hlen : 12 ≤ payload.length)
    (hres : env2.result0 = env1.result0)
    (hwh : env2.write_headers = env1.write_headers) (hwb : env2.write_body = env1.write_body)
    (hcl : env2.close = env1.close) :
    tcp_server_recv_fn env1 (some payload) = tcp_server_recv_fn env2 (some payload) := by
  have hpos : payload.length > 0 := by omega
  by_cases hget : payload.take 4 = bytes "GET "
  · have hm1 := strncmp_get_of_take env1.headers0 payload hget
    have hm2 := strncmp_get_of_take env2.headers0 payload hget
    have hr1 := route_of_long_payload env1.headers0 payload hlen
    have hr2 := route_of_long_payload env2.headers0 payload hlen
    have t1 : ∀ ip, (render_headers 56 ip) = ok_head ++ fmt_d 56 ++ ok_tail := by
      intro ip; simp [render_headers]
    have t2 : ∀ ip, (render_headers 54 ip) = ok_head ++ fmt_d 54 ++ ok_tail := by
      intro ip; simp [render_headers]
    have n1 : (ok_head ++ fmt_d 56 ++ ok_tail).length = 83 := by decide
    have n2 : (ok_head ++ fmt_d 54 ++ ok_tail).length = 83 := by decide
    have e1 : ((83 : Nat) : Int).toNat % 65536 = 83 := by decide
    have e2 : ¬ (((83 : Nat) : Int) > 512 - 1) := by decide
    have hs1 := fun buf => snprintf_fst_take buf (ok_head ++ fmt_d 56 ++ ok_tail) 512
      (by rw [n1]; norm_num)
    rw [n1] at hs1
    have hs2 := fun buf => snprintf_fst_take buf (ok_head ++ fmt_d 54 ++ ok_tail) 512
      (by rw [n2]; norm_num)
    rw [n2] at hs2
    rcases content_cases (split_request (work_buffer env1.headers0 payload)).1
        (split_request (work_buffer env1.headers0 payload)).2 env1.result0 with ⟨ha, hc1⟩ | ⟨ha, hc1⟩
    · rcases content_cases (split_request (work_buffer env2.headers0 payload)).1
        (split_request (work_buffer env2.headers0 payload)).2 env2.result0
        with ⟨hb, hc2⟩ | ⟨hb, hc2⟩
      · rw [hres] at hc2
        unfold tcp_server_recv_fn tcp_server_recv_core close_inline
        simp only [hpos, hm1, hm2, if_true, hc1, hc2, t1, snprintf_snd, n1, e1, e2, if_false,
          hs1, hres, hwh, hwb, hcl]
      · exact absurd (hr2.2 (hr1.1 ha)) hb
    · rcases content_cases (split_request (work_buffer env2.headers0 payload)).1
        (split_request (work_buffer env2.headers0 payload)).2 env2.result0
        with ⟨hb, hc2⟩ | ⟨hb, hc2⟩
      · exact absurd (hr1.2 (hr2.1 hb)) ha
      · rw [hres] at hc2
        unfold tcp_server_recv_fn tcp_server_recv_core close_inline
        simp only [hpos, hm1, hm2, if_true, hc1, hc2, t2, snprintf_snd, n2, e1, e2, if_false,
          hs2, hres, hwh, hwb, hcl]
  · have hne : ∀ h0 : List Nat, strncmp (bytes "GET ") (work_buffer h0 payload) 4 ≠ 0 := by
      intro h0
      obtain ⟨tl, htl⟩ := work_buffer_take4 h0 payload
      rw [htl]
      apply strncmp_get_ne _ _ (by simp)
      have h4 : (payload.take 4).length = 4 := by simp; omega
      rw [h4]
      exact hget
    unfold tcp_server_recv_fn tcp_server_recv_core
    simp only [hpos, hne, if_true, if_false]

end JoyServerAp

/-! ## Reading back the decimal texts -/

theorem expect_append (lit rest : List Nat) : expect lit (lit ++ rest) = some rest := by
  unfold expect
  rw [List.take_left' rfl, List.drop_left' rfl, if_pos rfl]

theorem takeWhile_digits_append (ds rest : List Nat) (hds : ∀ d ∈ ds, is_digit d = true)
    (hrest : ∀ c ∈ rest.head?, is_digit c = false) :
    (ds ++ rest).takeWhile is_digit = ds ∧ (ds ++ rest).dropWhile is_digit = rest := by
  induction ds with
  | nil =>
    cases rest with
    | nil => simp
    | cons c r =>
      have hc : is_digit c = false := hrest c (by simp)
      simp [List.takeWhile_cons, List.dropWhile_cons, hc]
  | cons d ds ih =>
    have hd : is_digit d = true := hds d (List.mem_cons_self _ _)
    obtain ⟨h1, h2⟩ := ih (fun x hx => hds x (List.mem_cons_of_mem _ hx))
    simp [List.takeWhile_cons, List.dropWhile_cons, hd, h1, h2]

theorem fmt_d_nat_digits (m : Nat) :
    (∀ d ∈ fmt_d (m : Int), is_digit d = true) ∧ fmt_d (m : Int) ≠ [] ∧
      digits_value (fmt_d (m : Int)) = m ∧ (fmt_d (m : Int)).head? ≠ some 45 := by
  rw [fmt_d_nat]
  have hlt : m < 10 ^ (m + 1) :=
    (Nat.lt_pow_self (by norm_num) m).trans (Nat.pow_lt_pow_right (by norm_num) (by omega))
  obtain ⟨hne, hv⟩ := decDigits_value m m hlt
  have hdig : ∀ d ∈ decDigits (m + 1) m, is_digit d = true := by
    intro d hd
    have := decDigits_digit _ _ d hd
    simp [is_digit, this]
  refine ⟨hdig, hne, hv, ?_⟩
  intro h
  have hmem : 45 ∈ decDigits (m + 1) m := by
    cases hl : decDigits (m + 1) m with
    | nil => rw [hl] at h; simp at h
    | cons a l => rw [hl] at h; simp at h; simp [h]
  have := decDigits_digit _ _ 45 hmem
  omega

theorem two_digits_facts (k : Nat) (hk : k < 100) :
    (∀ d ∈ two_digits k, is_digit d = true) ∧ two_digits k ≠ [] ∧
      (two_digits k).length = 2 ∧ digits_value (two_digits k) = k := by
  unfold two_digits
  refine ⟨?_, by simp, rfl, ?_⟩
  · intro d hd
    simp only [List.mem_cons, List.mem_singleton, List.not_mem_nil, or_false] at hd
    unfold is_digit
    rcases hd with h | h <;> subst h <;> simp <;> omega
  · simp only [digits_value, List.foldl_cons, List.foldl_nil]
    omega

theorem parse_number_decimal2 (neg : Bool) (n : Nat) (rest : List Nat)
    (hrest : ∀ c ∈ rest.head?, is_digit c = false) :
    parse_number (render_decimal2 neg n ++ rest) = some (decimal2_value neg n, rest) := by
  obtain ⟨hd, hne, hv, h45⟩ := fmt_d_nat_digits (n / 100)
  obtain ⟨td, tne, tlen, tv⟩ := two_digits_facts (n % 100) (Nat.mod_lt _ (by norm_num))
  have h46 : ∀ c ∈ (46 :: (two_digits (n % 100) ++ rest)).head?, is_digit c = false := by
    intro c hc
    simp at hc
    subst hc
    decide
  obtain ⟨ip1, ip2⟩ := takeWhile_digits_append (fmt_d ((n / 100 : Nat) : Int))
    (46 :: (two_digits (n % 100) ++ rest)) hd h46
  obtain ⟨fp1, fp2⟩ := takeWhile_digits_append (two_digits (n % 100)) rest td hrest
  have hval : ((n / 100 : Nat) : ℚ) + ((n % 100 : Nat) : ℚ) / 10 ^ 2 = (n : ℚ) / 100 := by
    have h := Nat.div_add_mod n 100
    have hq : ((100 * (n / 100) + n % 100 : Nat) : ℚ) = (n : ℚ) := by rw [h]
    push_cast at hq
    rw [← hq]
    ring
  have hshape : render_decimal2 neg n ++ rest
      = (if neg then [45] else []) ++ (fmt_d ((n / 100 : Nat) : Int)
          ++ 46 :: (two_digits (n % 100) ++ rest)) := by
    unfold render_decimal2
    simp
  rw [hshape]
  cases neg with
  | true =>
    unfold parse_number
    simp only [if_true, List.singleton_append, List.head?_cons, decide_True, List.tail_cons,
      ip1, ip2, hne, if_false, fp1, fp2, tne, hv, tv, tlen, hval, decimal2_value]
  | false =>
    have hhead : (fmt_d ((n / 100 : Nat) : Int)
        ++ 46 :: (two_digits (n % 100) ++ rest)).head? ≠ some 45 := by
      cases hl : fmt_d ((n / 100 : Nat) : Int) with
      | nil => exact absurd hl hne
      | cons a l =>
        rw [hl] at h45
        simpa using h45
    unfold parse_number
    simp only [Bool.false_eq_true, if_false, List.nil_append, hhead, decide_False,
      ip1, ip2, hne, fp1, fp2, tne, hv, tv, tlen, hval, decimal2_value]

theorem parse_number_fmt_d (m : Nat) (rest : List Nat)
    (hrest : ∀ c ∈ rest.head?, is_digit c = false) (hpoint : rest.head? ≠ some 46) :
    parse_number (fmt_d (m : Int) ++ rest) = some ((m : ℚ), rest) := by
  obtain ⟨hd, hne, hv, h45⟩ := fmt_d_nat_digits m
  obtain ⟨ip1, ip2⟩ := takeWhile_digits_append (fmt_d (m : Int)) rest hd hrest
  have hhead : (fmt_d (m : Int) ++ rest).head? ≠ some 45 := by
    cases hl : fmt_d (m : Int) with
    | nil => exact absurd hl hne
    | cons a l =>
      rw [hl] at h45
      simpa using h45
  unfold parse_number
  simp only [hhead, decide_False, Bool.false_eq_true, if_false, ip1, ip2, hne, hv]
  cases rest with
  | nil => rfl
  | cons c r =>
    have : c ≠ 46 := by simpa using hpoint
    split
    · next s3 heq => exact absurd (List.cons.inj heq).1 this
    · rfl

theorem head_of_literal (lit rest : List Nat) (c : Nat) (h : lit.head? = some c)
    (hc : is_digit c = false) : ∀ d ∈ (lit ++ rest).head?, is_digit d = false := by
  cases lit with
  | nil => simp at h
  | cons a l =>
    simp only [List.head?_cons, Option.some.injEq] at h
    subst h
    intro d hd
    simp only [List.cons_append, List.head?_cons, Option.mem_def, Option.some.injEq] at hd
    subst hd
    exact hc

theorem head_of_literal_ne (lit rest : List Nat) (c : Nat) (h : lit.head? = some c)
    (hc : c ≠ 46) : (lit ++ rest).head? ≠ some 46 := by
  cases lit with
  | nil => simp at h
  | cons a l =>
    simp only [List.head?_cons, Option.some.injEq] at h
    subst h
    simpa using hc

namespace BitdogClient

theorem parse_post_body_rendered (fmt2f : ℚ → List Nat) (data : SENSOR_DATA_T)
    (tneg xneg yneg : Bool) (tn xn yn : Nat)
    (ht : fmt2f data.temperature = render_decimal2 tneg tn)
    (hx : fmt2f data.analog_x = render_decimal2 xneg xn)
    (hy : fmt2f data.analog_y = render_decimal2 yneg yn) :
    parse_post_body (post_body fmt2f data) =
      some ⟨decimal2_value tneg tn, decimal2_value xneg xn, decimal2_value yneg yn,
        ((data.button_a % 256 : Nat) : ℚ), ((data.button_b % 256 : Nat) : ℚ)⟩ := by
  have c44 : is_digit 44 = false := by decide
  have c125 : is_digit 125 = false := by decide
  have e : post_body fmt2f data =
      bytes "\x7b\"temp\":" ++ (render_decimal2 tneg tn ++ (bytes ",\"joy_x\":"
        ++ (render_decimal2 xneg xn ++ (bytes ",\"joy_y\":"
        ++ (render_decimal2 yneg yn ++ (bytes ",\"btn_a\":"
        ++ (fmt_d ((data.button_a % 256 : Nat) : Int) ++ (bytes ",\"btn_b\":"
        ++ (fmt_d ((data.button_b % 256 : Nat) : Int) ++ bytes "\x7d"))))))))) := by
    unfold post_body
    rw [ht, hx, hy]
    simp only [List.append_assoc]
  have p1 := parse_number_decimal2 tneg tn (bytes ",\"joy_x\":"
        ++ (render_decimal2 xneg xn ++ (bytes ",\"joy_y\":"
        ++ (render_decimal2 yneg yn ++ (bytes ",\"btn_a\":"
        ++ (fmt_d ((data.button_a % 256 : Nat) : Int) ++ (bytes ",\"btn_b\":"
        ++ (fmt_d ((data.button_b % 256 : Nat) : Int) ++ bytes "\x7d"))))))))
    (head_of_literal _ _ 44 (by decide) c44)
  have p2 := parse_number_decimal2 xneg xn (bytes ",\"joy_y\":"
        ++ (render_decimal2 yneg yn ++ (bytes ",\"btn_a\":"
        ++ (fmt_d ((data.button_a % 256 : Nat) : Int) ++ (bytes ",\"btn_b\":"
        ++ (fmt_d ((data.button_b % 256 : Nat) : Int) ++ bytes "\x7d"))))))
    (head_of_literal _ _ 44 (by decide) c44)
  have p3 := parse_number_decimal2 yneg yn (bytes ",\"btn_a\":"
        ++ (fmt_d ((data.button_a % 256 : Nat) : Int) ++ (bytes ",\"btn_b\":"
        ++ (fmt_d ((data.button_b % 256 : Nat) : Int) ++ bytes "\x7d"))))
    (head_of_literal _ _ 44 (by decide) c44)
  have p4 := parse_number_fmt_d (data.button_a % 256) (bytes ",\"btn_b\":"
        ++ (fmt_d ((data.button_b % 256 : Nat) : Int) ++ bytes "\x7d"))
    (head_of_literal _ _ 44 (by decide) c44) (head_of_literal_ne _ _ 44 (by decide) (by decide))
  have p5 := parse_number_fmt_d (data.button_b % 256) (bytes "\x7d")
    (by decide) (by decide)
  rw [e]
  unfold parse_post_body
  simp only [expect_append, Option.some_bind, p1, p2, p3, p4, p5, if_true]

end BitdogClient

theorem render_decimal2_facts (neg : Bool) (n : Nat) (hn : n < 10000000) :
    (render_decimal2 neg n).length ≤ 150 ∧ ∀ b ∈ render_decimal2 neg n, b ≠ 0 := by
  have hlen : (fmt_d ((n / 100 : Nat) : Int)).length ≤ 5 := by
    rw [fmt_d_nat]
    exact decDigits_length _ _ 5 (by norm_num) (by omega)
  constructor
  · unfold render_decimal2 two_digits
    cases neg <;>
      simp only [List.length_append, List.length_cons, List.length_nil, if_true,
        Bool.false_eq_true, if_false] <;> omega
  · intro b hb
    unfold render_decimal2 two_digits at hb
    simp only [List.mem_append, List.mem_cons, List.mem_singleton, List.not_mem_nil,
      or_false] at hb
    rcases hb with ((h | h) | h) | h
    · cases neg <;> simp at h
      omega
    · exact fmt_d_nat_no_nul _ b h
    · omega
    · rcases h with h | h <;> omega

theorem decimal2_near_bound (neg : Bool) (n : Nat) (v : ℚ) (hv : |v| ≤ 40000)
    (hnear : |v - decimal2_value neg n| ≤ 1 / 200) : n < 10000000 := by
  have hq : (n : ℚ) / 100 ≤ 40001 := by
    rw [abs_le] at hv hnear
    unfold decimal2_value at hnear
    cases neg
    · simp only [Bool.false_eq_true, if_false] at hnear
      linarith [hnear.1, hv.2]
    · simp only [if_true] at hnear
      linarith [hnear.2, hv.1]
  have : (n : ℚ) ≤ 4000100 := by linarith
  have : n ≤ 4000100 := by exact_mod_cast this
  omega

theorem sampler_bounds (adc_x adc_y temp_raw : Nat) (gpio_a gpio_b : Bool) :
    |(update_readings adc_x adc_y temp_raw gpio_a gpio_b).temperature| ≤ 40000 ∧
      |(update_readings adc_x adc_y temp_raw gpio_a gpio_b).analog_x| ≤ 40000 ∧
      |(update_readings adc_x adc_y temp_raw gpio_a gpio_b).analog_y| ≤ 40000 ∧
      (update_readings adc_x adc_y temp_raw gpio_a gpio_b).button_a % 256
        = (update_readings adc_x adc_y temp_raw gpio_a gpio_b).button_a ∧
      (update_readings adc_x adc_y temp_raw gpio_a gpio_b).button_b % 256
        = (update_readings adc_x adc_y temp_raw gpio_a gpio_b).button_b := by
  have haxis : ∀ r : Nat, |read_analog_x r| ≤ 40000 := by
    intro r
    have hm : r % 65536 < 65536 := Nat.mod_lt _ (by norm_num)
    have he : read_analog_x r = read_analog_x (r % 65536) := by
      unfold read_analog_x
      rw [Nat.mod_mod]
    rw [he, read_analog_x_num _ hm, abs_le]
    have h1647 : (0 : ℚ) < 1647 := by norm_num
    rw [le_div_iff₀ h1647, div_le_iff₀ h1647]
    have hb : (-65536 : Int)
        ≤ (if r % 65536 > 2448 then ((r % 65536 : Nat) : Int) - 2448
            else if r % 65536 < 1648 then ((r % 65536 : Nat) : Int) - 1648 else 0) ∧
        (if r % 65536 > 2448 then ((r % 65536 : Nat) : Int) - 2448
            else if r % 65536 < 1648 then ((r % 65536 : Nat) : Int) - 1648 else 0)
          ≤ 65536 := by
      constructor <;> split_ifs <;> omega
    generalize (if r % 65536 > 2448 then ((r % 65536 : Nat) : Int) - 2448
            else if r % 65536 < 1648 then ((r % 65536 : Nat) : Int) - 1648 else 0) = k at hb
    have h1 : (-65536 : ℚ) ≤ (k : ℚ) := by exact_mod_cast hb.1
    have h2 : (k : ℚ) ≤ 65536 := by exact_mod_cast hb.2
    constructor <;> linarith
  refine ⟨?_, haxis adc_x, haxis adc_y, ?_, ?_⟩
  · show |update_readings_temperature temp_raw| ≤ 40000
    unfold update_readings_temperature
    have hm : temp_raw % 65536 < 65536 := Nat.mod_lt _ (by norm_num)
    have h0 : (0 : ℚ) ≤ ((temp_raw % 65536 : Nat) : ℚ) := Nat.cast_nonneg _
    have h1 : ((temp_raw % 65536 : Nat) : ℚ) ≤ 65536 := by exact_mod_cast hm.le
    have e : (1 <<< 12 : Nat) = 4096 := by decide
    simp only [e]
    rw [abs_le]
    constructor <;> norm_num <;> linarith
  · show (if gpio_a then 0 else 1) % 256 = (if gpio_a then 0 else 1)
    cases gpio_a <;> rfl
  · show (if gpio_b then 0 else 1) % 256 = (if gpio_b then 0 else 1)
    cases gpio_b <;> rfl

theorem fmt2f_nearest_rounds (v : ℚ) :
    ∃ (neg : Bool) (n : Nat), fmt2f_nearest v = render_decimal2 neg n ∧
      |v - decimal2_value neg n| ≤ 1 / 200 := by
  refine ⟨decide (v < 0), (⌊|v| * 100 + 1 / 2⌋).toNat, rfl, ?_⟩
  have hpos : (0 : ℚ) ≤ |v| * 100 + 1 / 2 := by positivity
  have hfl : (0 : Int) ≤ ⌊|v| * 100 + 1 / 2⌋ := Int.floor_nonneg.2 hpos
  have hcast : (((⌊|v| * 100 + 1 / 2⌋).toNat : Nat) : ℚ) = ((⌊|v| * 100 + 1 / 2⌋ : Int) : ℚ) := by
    have := Int.toNat_of_nonneg hfl
    exact_mod_cast this
  have hle := Int.floor_le (|v| * 100 + 1 / 2)
  have hlt := Int.lt_floor_add_one (|v| * 100 + 1 / 2)
  unfold decimal2_value
  rw [hcast]
  by_cases hv : v < 0
  · simp only [hv, decide_True, if_true]
    rw [abs_of_neg hv] at hle hlt ⊢
    rw [abs_le]
    constructor <;> linarith
  · simp only [hv, decide_False, Bool.false_eq_true, if_false]
    rw [abs_of_nonneg (not_lt.1 hv)] at hle hlt ⊢
    rw [abs_le]
    constructor <;> linarith

namespace BitdogClient

theorem send_post_writes_body (fmt2f : ℚ → List Nat) (data : SENSOR_DATA_T)
    (hlen : (post_body fmt2f data).length ≤ 512 - 1) (h0 : ∀ b ∈ post_body fmt2f data, b ≠ 0) :
    http_client_send_post fmt2f data =
      [Call.tcp_write (request_head ++ fmt_d ((post_body fmt2f data).length : Int)
          ++ request_tail ++ post_body fmt2f data), Call.tcp_output] := by
  have hstr : snprintf_str 512 (post_body fmt2f data) = post_body fmt2f data :=
    snprintf_str_fits _ _ hlen h0
  have hsl : strlen (post_body fmt2f data) = (post_body fmt2f data).length := by
    unfold strlen; rw [cstr_eq_self _ h0]
  have hdig : (fmt_d ((post_body fmt2f data).length : Int)).length ≤ 3 := by
    rw [fmt_d_nat]
    exact decDigits_length _ _ 3 (by norm_num) (by omega)
  have hr0 : ∀ b ∈ request_head ++ fmt_d ((post_body fmt2f data).length : Int)
      ++ request_tail ++ post_body fmt2f data, b ≠ 0 := by
    intro b hb
    simp only [List.mem_append] at hb
    rcases hb with ((h | h) | h) | h
    · exact request_head_facts.2.2 b h
    · exact fmt_d_nat_no_nul _ b h
    · exact request_tail_facts.2 b h
    · exact h0 b h
  have hrlen : (request_head ++ fmt_d ((post_body fmt2f data).length : Int)
      ++ request_tail ++ post_body fmt2f data).length ≤ 640 := by
    simp only [List.length_append, request_head_facts.2.1, request_tail_facts.1]
    omega
  have hrequest : snprintf_str 1024 (request_head ++ fmt_d ((post_body fmt2f data).length : Int)
      ++ request_tail ++ cstr (post_body fmt2f data))
      = request_head ++ fmt_d ((post_body fmt2f data).length : Int)
        ++ request_tail ++ post_body fmt2f data := by
    rw [cstr_eq_self _ h0]
    exact snprintf_str_fits 1024 _ (by omega) hr0
  have hlen2 : strlen (request_head ++ fmt_d ((post_body fmt2f data).length : Int)
      ++ request_tail ++ post_body fmt2f data) % 65536
      = (request_head ++ fmt_d ((post_body fmt2f data).length : Int)
        ++ request_tail ++ post_body fmt2f data).length := by
    unfold strlen
    rw [cstr_eq_self _ hr0]
    exact Nat.mod_eq_of_lt (by omega)
  unfold http_client_send_post
  simp only [hstr, hsl, hrequest, hlen2, List.take_length]

end BitdogClient

namespace BitdogClient

theorem post_body_of_decimals (fmt2f : ℚ → List Nat) (data : SENSOR_DATA_T)
    (tneg xneg yneg : Bool) (tn xn yn : Nat)
    (ht : fmt2f data.temperature = render_decimal2 tneg tn) (htn : tn < 10000000)
    (hx : fmt2f data.analog_x = render_decimal2 xneg xn) (hxn : xn < 10000000)
    (hy : fmt2f data.analog_y = render_decimal2 yneg yn) (hyn : yn < 10000000) :
    (post_body fmt2f data).length ≤ 512 - 1 ∧ ∀ b ∈ post_body fmt2f data, b ≠ 0 :=
  post_body_fits fmt2f data (by rw [ht]; exact render_decimal2_facts tneg tn htn)
    (by rw [hx]; exact render_decimal2_facts xneg xn hxn)
    (by rw [hy]; exact render_decimal2_facts yneg yn hyn)

/-- Counterexample to C21 as stated: the sampler reading for the raw X sample
2449 has `analog_x = 1 / 1647`; with `%.2f` rounding to the nearest hundredth the
body sent carries `"joy_x":0.00`, which parses to 0, and the difference
`1 / 1647` is far above the float epsilon 2⁻²³. No text with two decimals is
within the float epsilon of that reading. -/
theorem post_round_trip_loses_digits :
    (update_readings 2449 2048 876 true true).analog_x = 1 / 1647 ∧
      http_client_send_post fmt2f_nearest (update_readings 2449 2048 876 true true) =
        [Call.tcp_write (request_head ++ bytes "60" ++ request_tail
            ++ bytes ("\x7b\"temp\":27.14,\"joy_x\":0.00,\"joy_y\":0.00,"
              ++ "\"btn_a\":0,\"btn_b\":0\x7d")),
          Call.tcp_output] ∧
      (parse_post_body (bytes ("\x7b\"temp\":27.14,\"joy_x\":0.00,\"joy_y\":0.00,"
              ++ "\"btn_a\":0,\"btn_b\":0\x7d"))).map PostFields.joy_x = some 0 ∧
      ¬ |(0 : ℚ) - (update_readings 2449 2048 876 true true).analog_x| ≤ FLT_EPSILON ∧
      ∀ (neg : Bool) (n : Nat),
        ¬ |decimal2_value neg n - (update_readings 2449 2048 876 true true).analog_x|
          ≤ FLT_EPSILON := by
  have hxv : (update_readings 2449 2048 876 true true).analog_x = 1 / 1647 := by
    show read_analog_x 2449 = 1 / 1647
    rw [read_analog_x_num 2449 (by decide)]
    norm_num
  have hyv : (update_readings 2449 2048 876 true true).analog_y = 0 := by
    show read_analog_y 2048 = 0
    rw [read_analog_y_eq_x, read_analog_x_num 2048 (by decide)]
    norm_num
  have htv : (update_readings 2449 2048 876 true true).temperature = 1494569 / 55072 := by
    show update_readings_temperature 876 = 1494569 / 55072
    have e : (1 <<< 12 : Nat) = 4096 := by decide
    unfold update_readings_temperature
    simp only [e]
    norm_num
  have ft : fmt2f_nearest (update_readings 2449 2048 876 true true).temperature
      = render_decimal2 false 2714 := by
    rw [htv]
    unfold fmt2f_nearest
    rw [abs_of_pos (by norm_num : (0 : ℚ) < 1494569 / 55072)]
    norm_num
    rfl
  have fx : fmt2f_nearest (update_readings 2449 2048 876 true true).analog_x
      = render_decimal2 false 0 := by
    rw [hxv]
    unfold fmt2f_nearest
    rw [abs_of_pos (by norm_num : (0 : ℚ) < 1 / 1647)]
    norm_num
  have fy : fmt2f_nearest (update_readings 2449 2048 876 true true).analog_y
      = render_decimal2 false 0 := by
    rw [hyv]
    unfold fmt2f_nearest
    norm_num
  have hbody : post_body fmt2f_nearest (update_readings 2449 2048 876 true true)
      = bytes ("\x7b\"temp\":27.14,\"joy_x\":0.00,\"joy_y\":0.00,"
              ++ "\"btn_a\":0,\"btn_b\":0\x7d") := by
    unfold post_body
    rw [ft, fx, fy]
    decide
  have hfit := post_body_of_decimals fmt2f_nearest (update_readings 2449 2048 876 true true)
    false false false 2714 0 0 ft (by decide) fx (by decide) fy (by decide)
  have hparse := parse_post_body_rendered fmt2f_nearest
    (update_readings 2449 2048 876 true true) false false false 2714 0 0 ft fx fy
  have heps : ∀ (neg : Bool) (n : Nat), ¬ |decimal2_value neg n - (1 : ℚ) / 1647| ≤ FLT_EPSILON := by
    intro neg n h
    unfold FLT_EPSILON at h
    rw [abs_le] at h
    unfold decimal2_value at h
    have hn0 : (0 : ℚ) ≤ (n : ℚ) := Nat.cast_nonneg n
    cases neg
    · simp only [Bool.false_eq_true, if_false] at h
      rcases Nat.eq_zero_or_pos n with h0 | h1
      · subst h0
        norm_num at h
      · have : (1 : ℚ) ≤ (n : ℚ) := by exact_mod_cast h1
        have h2 := h.2
        norm_num at h2
        linarith
    · simp only [if_true] at h
      have h1 := h.1
      norm_num at h1
      linarith
  refine ⟨hxv, ?_, ?_, ?_, ?_⟩
  · rw [send_post_writes_body _ _ hfit.1 hfit.2, hbody]
    have : fmt_d (((bytes ("\x7b\"temp\":27.14,\"joy_x\":0.00,\"joy_y\":0.00,"
              ++ "\"btn_a\":0,\"btn_b\":0\x7d")).length : Nat) : Int) = bytes "60" := by
      decide
    rw [this]
  · rw [← hbody, hparse]
    simp [decimal2_value]
  · rw [hxv]
    have := heps false 0
    simpa [decimal2_value] using this
  · intro neg n
    rw [hxv]
    exact heps neg n

/-- C21 (amended). POST round trip: for every reading the sampler produces and
every `%.2f` conversion that prints, for each of the three float fields, a text
with two decimals whose value is within 0.005 of the field, the body that
`http_client_send_post` writes parses as JSON to temp, joy_x and joy_y within
0.005 of the reading's temperature, analog_x and analog_y, and to btn_a, btn_b
equal to its button states. -/
theorem post_round_trip_two_decimals (fmt2f : ℚ → List Nat)
    (adc_x adc_y temp_raw : Nat) (gpio_a gpio_b : Bool) (data : SENSOR_DATA_T)
    (hdata : data = update_readings adc_x adc_y temp_raw gpio_a gpio_b)
    (ht : ∃ (neg : Bool) (n : Nat), fmt2f data.temperature = render_decimal2 neg n ∧
      |data.temperature - decimal2_value neg n| ≤ 1 / 200)
    (hx : ∃ (neg : Bool) (n : Nat), fmt2f data.analog_x = render_decimal2 neg n ∧
      |data.analog_x - decimal2_value neg n| ≤ 1 / 200)
    (hy : ∃ (neg : Bool) (n : Nat), fmt2f data.analog_y = render_decimal2 neg n ∧
      |data.analog_y - decimal2_value neg n| ≤ 1 / 200) :
    ∃ (digits body : List Nat) (fields : PostFields),
      http_client_send_post fmt2f data =
        [Call.tcp_write (request_head ++ digits ++ request_tail ++ body), Call.tcp_output] ∧
      body = post_body fmt2f data ∧
      parse_post_body body = some fields ∧
      |fields.temp - data.temperature| ≤ 1 / 200 ∧
      |fields.joy_x - data.analog_x| ≤ 1 / 200 ∧
      |fields.joy_y - data.analog_y| ≤ 1 / 200 ∧
      fields.btn_a = (data.button_a : ℚ) ∧ fields.btn_b = (data.button_b : ℚ) := by
  obtain ⟨tneg, tn, ht1, ht2⟩ := ht
  obtain ⟨xneg, xn, hx1, hx2⟩ := hx
  obtain ⟨yneg, yn, hy1, hy2⟩ := hy
  have hb := sampler_bounds adc_x adc_y temp_raw gpio_a gpio_b
  rw [← hdata] at hb
  obtain ⟨bt, bx, by_, ba, bb⟩ := hb
  have hfit := post_body_of_decimals fmt2f data tneg xneg yneg tn xn yn
    ht1 (decimal2_near_bound _ _ _ bt ht2) hx1 (decimal2_near_bound _ _ _ bx hx2)
    hy1 (decimal2_near_bound _ _ _ by_ hy2)
  refine ⟨fmt_d ((post_body fmt2f data).length : Int), post_body fmt2f data,
    ⟨decimal2_value tneg tn, decimal2_value xneg xn, decimal2_value yneg yn,
      ((data.button_a % 256 : Nat) : ℚ), ((data.button_b % 256 : Nat) : ℚ)⟩,
    send_post_writes_body _ _ hfit.1 hfit.2, rfl,
    parse_post_body_rendered fmt2f data tneg xneg yneg tn xn yn ht1 hx1 hy1, ?_, ?_, ?_, ?_, ?_⟩
  · rw [abs_sub_comm]; exact ht2
  · rw [abs_sub_comm]; exact hx2
  · rw [abs_sub_comm]; exact hy2
  · show ((data.button_a % 256 : Nat) : ℚ) = (data.button_a : ℚ)
    rw [ba]
  · show ((data.button_b % 256 : Nat) : ℚ) = (data.button_b : ℚ)
    rw [bb]

/-- Witness of the amended C21 at the raw samples 2449, 0 and 876 with button A
pressed, for the conversion that rounds to the nearest hundredth. -/
theorem post_round_trip_two_decimals_witness :
    ∃ (digits body : List Nat) (fields : PostFields),
      http_client_send_post fmt2f_nearest (update_readings 2449 0 876 false true) =
        [Call.tcp_write (request_head ++ digits ++ request_tail ++ body), Call.tcp_output] ∧
      body = post_body fmt2f_nearest (update_readings 2449 0 876 false true) ∧
      parse_post_body body = some fields ∧
      |fields.temp - (update_readings 2449 0 876 false true).temperature| ≤ 1 / 200 ∧
      |fields.joy_x - (update_readings 2449 0 876 false true).analog_x| ≤ 1 / 200 ∧
      |fields.joy_y - (update_readings 2449 0 876 false true).analog_y| ≤ 1 / 200 ∧
      fields.btn_a = ((update_readings 2449 0 876 false true).button_a : ℚ) ∧
      fields.btn_b = ((update_readings 2449 0 876 false true).button_b : ℚ) :=
  post_round_trip_two_decimals fmt2f_nearest 2449 0 876 false true _ rfl
    (fmt2f_nearest_rounds _) (fmt2f_nearest_rounds _) (fmt2f_nearest_rounds _)

end BitdogClient
